import Mathlib

/-!
Verification of the CertManager core against its specification.

This file shallowly embeds the CSR Workflow Engine (csrController),
the Command Gateway (powershellService), and the certificate status
reconciler / notification dispatcher (certificateService,
notificationService), and proves or refutes the spec claims about them.

External effects (the document store, the spawned process, the mail
transport, wall-clock time) are modelled as explicit inputs: times are
integer milliseconds, a gateway call's outcome is a `PSResult` input,
and a mail send's outcome is a `sendOk` oracle input.
-/

namespace CertManager

/-- Milliseconds per day, as used by `days * 24 * 60 * 60 * 1000`. -/
def msPerDay : Int := 24 * 60 * 60 * 1000

/-! ## Certificate data model (models/Certificate) -/

/-- Certificate.status enum: active / expiring / expired / revoked. -/
inductive CertStatus
  | active
  | expiring
  | expired
  | revoked
deriving DecidableEq, Repr

/-- One entry of `notificationsSent`: threshold type string (e.g. "7day"),
send time, recipient list. -/
structure NotificationRecord where
  type : String
  sentAt : Int
  recipients : List String
deriving DecidableEq, Repr

/-- The fields of a Certificate document that the reconciler and the
dispatcher read or write. -/
structure Certificate where
  serialNumber : String
  commonName : String
  status : CertStatus
  validTo : Int
  notificationsSent : List NotificationRecord
deriving DecidableEq, Repr

/-! ## Status reconciliation (certificateService.updateCertificateStatuses)

The three `updateMany` sweeps are per-document updates; each is modelled
as a per-certificate match/update function applied across the collection,
with the Mongo `modifiedCount` as the number of matched documents (every
match changes the status field, so matched = modified here). -/

/-- Phase 1: `status ∉ {expired, revoked} ∧ validTo < now → status := expired`. -/
def expiredPhase (now : Int) (c : Certificate) : Certificate × Bool :=
  if (c.status ≠ CertStatus.expired ∧ c.status ≠ CertStatus.revoked) ∧ c.validTo < now then
    ({ c with status := CertStatus.expired }, true)
  else (c, false)

/-- Phase 2: `status = active ∧ now ≤ validTo ≤ now + 30 days → status := expiring`. -/
def expiringPhase (now : Int) (c : Certificate) : Certificate × Bool :=
  let in30Days := now + 30 * msPerDay
  if c.status = CertStatus.active ∧ now ≤ c.validTo ∧ c.validTo ≤ in30Days then
    ({ c with status := CertStatus.expiring }, true)
  else (c, false)

/-- Phase 3: `status = expiring ∧ validTo > now + 30 days → status := active`. -/
def activePhase (now : Int) (c : Certificate) : Certificate × Bool :=
  let in30Days := now + 30 * msPerDay
  if c.status = CertStatus.expiring ∧ c.validTo > in30Days then
    ({ c with status := CertStatus.active }, true)
  else (c, false)

/-- `Certificate.updateMany(query, update)` over the collection: applies the
per-document update and reports how many documents were modified. -/
def updateMany (f : Certificate → Certificate × Bool) (certs : List Certificate) :
    List Certificate × Nat :=
  (certs.map (fun c => (f c).1), certs.countP (fun c => (f c).2))

/-- `updateCertificateStatuses`: three sequential updateMany sweeps
(expired, then expiring, then active), returning the new collection and
the total modified count. -/
def updateCertificateStatuses (now : Int) (certs : List Certificate) :
    List Certificate × Nat :=
  let r1 := updateMany (expiredPhase now) certs
  let r2 := updateMany (expiringPhase now) r1.1
  let r3 := updateMany (activePhase now) r2.1
  (r3.1, r1.2 + r2.2 + r3.2)

/-- The effect of one reconciliation run on a single certificate
(the three phases composed, in sweep order). -/
def reconcileCert (now : Int) (c : Certificate) : Certificate :=
  (activePhase now (expiringPhase now (expiredPhase now c).1).1).1

/-- How many of the three sweeps mutate a given certificate in one run. -/
def certMutations (now : Int) (c : Certificate) : Nat :=
  let r1 := expiredPhase now c
  let r2 := expiringPhase now r1.1
  let r3 := activePhase now r2.1
  (if r1.2 then 1 else 0) + (if r2.2 then 1 else 0) + (if r3.2 then 1 else 0)

/-- Repeated reconciliation runs at the given sequence of times. -/
def runReconciles (ts : List Int) (certs : List Certificate) : List Certificate :=
  ts.foldl (fun cs now => (updateCertificateStatuses now cs).1) certs

/-! ## Notification dispatch (notificationService.sendExpirationNotifications)

The mail transport is modelled by a `sendOk` oracle giving each
(serialNumber, threshold-days) send attempt's outcome; the recipient
resolution (a store lookup) is modelled by its resolved output list. -/

/-- One configured threshold from NotificationSettings. -/
structure ThresholdConfig where
  days : Nat
  enabled : Bool
deriving DecidableEq, Repr

/-- The global NotificationSettings document (recipients are modelled
post-resolution, see `sendExpirationNotifications`). -/
structure NotificationSettings where
  enabled : Bool
  thresholds : List ThresholdConfig
deriving DecidableEq, Repr

/-- The threshold type string `` `${days}day` ``. -/
def dayString (days : Nat) : String := toString days ++ "day"

/-- Insert into a descending-sorted list (model of `.sort((a, b) => b - a)`). -/
def insertDesc (x : Nat) : List Nat → List Nat
  | [] => [x]
  | y :: ys => if y ≤ x then x :: y :: ys else y :: insertDesc x ys

/-- Sort descending (model of `.sort((a, b) => b - a)`). -/
def sortDesc : List Nat → List Nat
  | [] => []
  | x :: xs => insertDesc x (sortDesc xs)

/-- `settings.thresholds.filter(enabled).map(days).sort(desc)`. -/
def enabledThresholds (settings : NotificationSettings) : List Nat :=
  sortDesc ((settings.thresholds.filter (fun t => t.enabled)).map (fun t => t.days))

/-- The query window of `findCertificatesExpiringInDays`: status not
revoked and `now + (days-1)·day ≤ validTo ≤ now + days·day`. -/
def expiringWindow (now : Int) (days : Nat) (c : Certificate) : Bool :=
  !(c.status == CertStatus.revoked)
    && decide (now + ((days : Int) - 1) * msPerDay ≤ c.validTo)
    && decide (c.validTo ≤ now + (days : Int) * msPerDay)

/-- `findCertificatesExpiringInDays`: the certificates matching the window query. -/
def findCertificatesExpiringInDays (now : Int) (days : Nat)
    (certs : List Certificate) : List Certificate :=
  certs.filter (expiringWindow now days)

/-- Processing of one found certificate for one threshold: skip if a
`notificationsSent` entry of this threshold type exists; otherwise attempt
the send and, only on success, push the sent-record. Returns the updated
certificate and `none` (skipped) or `some ok` (attempted, with outcome). -/
def processCertForThreshold (days : Nat) (now : Int) (sendOk : String → Nat → Bool)
    (recipients : List String) (c : Certificate) : Certificate × Option Bool :=
  if c.notificationsSent.any (fun n => n.type == dayString days) then
    (c, none)
  else if sendOk c.serialNumber days then
    ({ c with notificationsSent :=
        c.notificationsSent ++ [⟨dayString days, now, recipients⟩] }, some true)
  else (c, some false)

/-- One threshold's pass over the collection: each certificate in the
window is processed and saved; others are untouched. The log records each
send attempt as (serialNumber, days, outcome). -/
def runThreshold (now : Int) (sendOk : String → Nat → Bool) (recipients : List String)
    (days : Nat) : List Certificate → List Certificate × List (String × Nat × Bool)
  | [] => ([], [])
  | c :: rest =>
      let tail := runThreshold now sendOk recipients days rest
      if expiringWindow now days c then
        match processCertForThreshold days now sendOk recipients c with
        | (c2, none) => (c2 :: tail.1, tail.2)
        | (c2, some ok) => (c2 :: tail.1, (c.serialNumber, days, ok) :: tail.2)
      else (c :: tail.1, tail.2)

/-- The outer loop over enabled thresholds (descending): each threshold's
pass runs over the collection state the previous pass left, and the send
logs accumulate in order. -/
def dispatchThresholds (now : Int) (sendOk : String → Nat → Bool)
    (recipients : List String) : List Nat → List Certificate →
    List Certificate × List (String × Nat × Bool)
  | [], certs => (certs, [])
  | days :: tds, certs =>
      let r := runThreshold now sendOk recipients days certs
      let rest := dispatchThresholds now sendOk recipients tds r.1
      (rest.1, r.2 ++ rest.2)

/-- `sendExpirationNotifications`: no-op when disabled, no thresholds are
enabled, or no recipients resolve; otherwise a pass per enabled threshold.
`recipients` is the output of `resolveRecipients` (a store lookup). -/
def sendExpirationNotifications (now : Int) (settings : NotificationSettings)
    (recipients : List String) (sendOk : String → Nat → Bool)
    (certs : List Certificate) : List Certificate × List (String × Nat × Bool) :=
  if !settings.enabled then (certs, [])
  else
    let tds := enabledThresholds settings
    if tds.isEmpty then (certs, [])
    else if recipients.isEmpty then (certs, [])
    else dispatchThresholds now sendOk recipients tds certs

/-- The effect of one threshold pass on a single certificate. -/
def stepCertThreshold (now : Int) (sendOk : String → Nat → Bool)
    (recipients : List String) (c : Certificate) (days : Nat) : Certificate :=
  if expiringWindow now days c then (processCertForThreshold days now sendOk recipients c).1
  else c

/-- The effect of a full dispatch's threshold passes on a single certificate. -/
def certAfterThresholds (now : Int) (sendOk : String → Nat → Bool)
    (recipients : List String) (tds : List Nat) (c : Certificate) : Certificate :=
  tds.foldl (stepCertThreshold now sendOk recipients) c

/-- Number of `notificationsSent` entries of a given threshold type. -/
def countType (c : Certificate) (t : String) : Nat :=
  c.notificationsSent.countP (fun n => n.type == t)

/-- Number of logged send attempts for a (serialNumber, days) pair. -/
def logCountFor (s : String) (d : Nat) (log : List (String × Nat × Bool)) : Nat :=
  log.countP (fun e => e.1 == s && e.2.1 == d)

/-- Number of logged send attempts for a serialNumber (any threshold). -/
def logCountSerial (s : String) (log : List (String × Nat × Bool)) : Nat :=
  log.countP (fun e => e.1 == s)

/-- The send attempts a single certificate contributes, pass by pass, over
a threshold list (the per-certificate view of the dispatch log), counted
under a predicate `p`. -/
def certLogCount (p : String × Nat × Bool → Bool) (now : Int)
    (sendOk : String → Nat → Bool) (recipients : List String) :
    List Nat → Certificate → Nat
  | [], _ => 0
  | t :: tds, c =>
      (if expiringWindow now t c = true ∧
          c.notificationsSent.any (fun n => n.type == dayString t) = false
       then (if p (c.serialNumber, t, sendOk c.serialNumber t) then 1 else 0) else 0)
      + certLogCount p now sendOk recipients tds
          (stepCertThreshold now sendOk recipients c t)

/-! ## Command Gateway (powershellService) -/

/-- The single-quote character. -/
def squote : Char := Char.ofNat 39

/-- Double every single quote (the replace of `sanitizePSString`). -/
def escapeQuoteChars : List Char → List Char
  | [] => []
  | c :: rest =>
      if c = squote then squote :: squote :: escapeQuoteChars rest
      else c :: escapeQuoteChars rest

/-- `sanitizePSString(value)`: `value.replace(/'/g, "''")` — in PowerShell
single-quoted strings the only escape is a doubled single quote. -/
def sanitizePSString (value : String) : String :=
  String.mk (escapeQuoteChars value.data)

/-- Wrap a (pre-escaped) value in single quotes, as every string
interpolation site in the gateway does. -/
def singleQuoteWrap (s : String) : String :=
  String.mk (squote :: s.data ++ [squote])

/-- The target shell's parse of a single-quoted literal body: a doubled
single quote denotes a literal single quote; a lone single quote closes
the literal; reaching the end without a closing quote fails. Returns the
literal's value and the remaining input. -/
def psSingleQuotedBody : List Char → Option (List Char × List Char)
  | [] => none
  | [c] => if c = squote then some ([], []) else none
  | c :: c2 :: rest =>
      if c = squote then
        if c2 = squote then
          (psSingleQuotedBody rest).map (fun p => (squote :: p.1, p.2))
        else some ([], c2 :: rest)
      else
        (psSingleQuotedBody (c2 :: rest)).map (fun p => (c :: p.1, p.2))

/-- The target shell's parse of a full single-quoted literal: an opening
quote, a body, a closing quote. -/
def parsePSSingleQuoted (s : String) : Option (String × String) :=
  match s.data with
  | [] => none
  | c :: rest =>
      if c = squote then
        (psSingleQuotedBody rest).map (fun p => (String.mk p.1, String.mk p.2))
      else none

/-- Parameter key validation `^[a-zA-Z][a-zA-Z0-9]*$`. -/
def validParamKey (k : String) : Bool :=
  match k.data with
  | [] => false
  | c :: rest => c.isAlpha && rest.all (fun d => d.isAlpha || d.isDigit)

/-- Hostname validation `^[a-zA-Z0-9._-]+$` with length ≤ 253. -/
def hostnameChar (c : Char) : Bool :=
  c.isAlpha || c.isDigit || c == Char.ofNat 46 || c == Char.ofNat 95 || c == Char.ofNat 45

/-- `validateHostname`. -/
def validateHostname (hostname : String) : Bool :=
  !hostname.data.isEmpty && hostname.data.all hostnameChar && hostname.length ≤ 253

/-- A PowerShell parameter value: string, number, or boolean. The source's
numbers are JS doubles guarded by `Number.isFinite`; parameter values used
by this repository are integral, so numbers are modelled as integers (for
which the finiteness guard always passes). -/
inductive PSValue
  | str (s : String)
  | num (n : Int)
  | bool (b : Bool)
deriving DecidableEq, Repr

/-- Formatting of one parameter: invalid keys throw; `true` booleans become
a bare flag and `false` ones are dropped; numbers are passed bare; strings
are escaped and wrapped in single quotes. -/
def formatParam (key : String) (v : PSValue) : Except String (Option String) :=
  if !validParamKey key then Except.error ("Invalid parameter key: " ++ key)
  else
    match v with
    | PSValue.bool b => Except.ok (if b then some ("-" ++ key) else none)
    | PSValue.num n => Except.ok (some ("-" ++ key ++ " " ++ toString n))
    | PSValue.str s =>
        Except.ok (some ("-" ++ key ++ " " ++ singleQuoteWrap (sanitizePSString s)))

/-- Formatting of the whole parameter map (empty-string entries filtered out). -/
def collectParams : List (String × PSValue) → Except String (List String)
  | [] => Except.ok []
  | (k, v) :: rest =>
      match formatParam k v with
      | Except.error e => Except.error e
      | Except.ok o =>
          match collectParams rest with
          | Except.error e => Except.error e
          | Except.ok ps => Except.ok (match o with | some p => p :: ps | none => ps)

/-- The allow-list of invocable scripts. -/
def ALLOWED_SCRIPTS : List String :=
  ["Bind-IISCertificate.ps1", "Get-CAInfo.ps1", "Get-IssuedCertificates.ps1",
   "Install-Certificate.ps1", "New-CertificateRequest.ps1",
   "Submit-CertificateRequest.ps1"]

/-- The scripts directory (models `path.join(__dirname, '..', 'scripts')`). -/
def SCRIPTS_DIR : String := "/app/server/dist/scripts"

/-- One step of POSIX-style path normalization over segments. -/
def normStep (acc : List String) (seg : String) : List String :=
  if seg = "" ∨ seg = "." then acc
  else if seg = ".." then acc.dropLast
  else acc ++ [seg]

/-- Model of `path.resolve` on an absolute path: segment normalization. -/
def pathResolve (p : String) : String :=
  "/" ++ String.intercalate "/" ((p.splitOn "/").foldl normStep [])

/-- Model of `path.join(dir, file)` for an absolute `dir`. -/
def pathJoin (a b : String) : String := pathResolve (a ++ "/" ++ b)

/-- The gateway's options object. -/
structure PowerShellOptions where
  script : Option String
  scriptFile : Option String
  parameters : List (String × PSValue)
  remoteComputer : Option String
deriving DecidableEq, Repr

/-- The observable outcome of `executePowerShell` up to the spawn point:
either an early failure result (no process spawned), a thrown parameter
error (promise rejection, no process spawned), or a spawned process with
the constructed `-Command` string. -/
inductive GatewayOutcome
  | failure (error : String)
  | thrown (error : String)
  | spawn (command : String)
deriving DecidableEq, Repr

/-- Parameter embedding and remote wrapping, shared by the script-file and
inline-script paths of `executePowerShell`. -/
def buildWithParams (base : String) (o : PowerShellOptions) : GatewayOutcome :=
  match collectParams o.parameters with
  | Except.error e => GatewayOutcome.thrown e
  | Except.ok ps =>
      let command := if ps.isEmpty then base else base ++ " " ++ String.intercalate " " ps
      match o.remoteComputer with
      | some rc =>
          if !validateHostname rc then GatewayOutcome.failure "Invalid remote computer name"
          else GatewayOutcome.spawn
            ("Invoke-Command -ComputerName " ++ singleQuoteWrap (sanitizePSString rc)
              ++ " -ScriptBlock \x7b " ++ command ++ " \x7d")
      | none => GatewayOutcome.spawn command

/-- `executePowerShell` up to the spawn point: allow-list check, path
containment check, command construction. -/
def executePowerShell (o : PowerShellOptions) : GatewayOutcome :=
  match o.scriptFile with
  | some sf =>
      if sf ∉ ALLOWED_SCRIPTS then
        GatewayOutcome.failure ("Script not allowed: " ++ sf)
      else
        let fullPath := pathJoin SCRIPTS_DIR sf
        let resolvedPath := pathResolve fullPath
        let resolvedScriptsDir := pathResolve SCRIPTS_DIR
        if !resolvedPath.startsWith resolvedScriptsDir then
          GatewayOutcome.failure "Invalid script path"
        else buildWithParams ("& " ++ singleQuoteWrap (sanitizePSString fullPath)) o
  | none =>
      match o.script with
      | some sc => buildWithParams sc o
      | none => GatewayOutcome.failure "No script or scriptFile provided"

/-! ## CSR Workflow Engine (csrController) -/

/-- CSRRequest.status enum. -/
inductive CSRStatus
  | draft
  | pending
  | submitted
  | issued
  | failed
  | cancelled
deriving DecidableEq, Repr

/-- Workflow step sub-status. -/
inductive StepStatus
  | pending
  | completed
  | failed
deriving DecidableEq, Repr

/-- One entry of `workflowSteps`. -/
structure WorkflowStep where
  step : String
  status : StepStatus
  error : Option String
  completedAt : Option Int
deriving DecidableEq, Repr

/-- The optional subject sub-document. -/
structure SubjectFields where
  organization : Option String
  organizationalUnit : Option String
  locality : Option String
  state : Option String
  country : Option String
deriving DecidableEq, Repr

/-- The CSRRequest document fields the workflow engine reads or writes.
String fields that Mongoose leaves undefined are modelled with "" as the
absent (falsy) value, matching the JS truthiness checks on them. -/
structure CSRRequest where
  commonName : String
  subjectAlternativeNames : List String
  subject : SubjectFields
  keySize : Nat
  keyAlgorithm : String
  hashAlgorithm : String
  templateName : Option String
  targetCAId : Option String
  targetServerFqdn : Option String
  status : CSRStatus
  csrPEM : String
  privateKeyLocation : String
  errorMessage : String
  processedAt : Option Int
  workflowSteps : List WorkflowStep
deriving DecidableEq, Repr

/-- `SAFE_SUBJECT_REGEX` character class `[a-zA-Z0-9 .,_@()-]`. -/
def subjectChar (c : Char) : Bool :=
  c.isAlpha || c.isDigit || c == Char.ofNat 32 || c == Char.ofNat 46
    || c == Char.ofNat 44 || c == Char.ofNat 95 || c == Char.ofNat 64
    || c == Char.ofNat 40 || c == Char.ofNat 41 || c == Char.ofNat 45

/-- `validateSubjectField`: matches `^[a-zA-Z0-9 .,_@()-]+$` and length ≤ 200. -/
def validateSubjectField (value : String) : Bool :=
  !value.data.isEmpty && value.data.all subjectChar && value.length ≤ 200

/-- The SAN character class `[a-zA-Z0-9.*@_-]` of `validateSAN`'s leading
group. The regex's trailing `(\.[a-zA-Z0-9*_-]+)*` groups draw from a
subset of this class (the dot is already in the leading class), so the
regex accepts exactly the nonempty strings over this class. -/
def sanChar (c : Char) : Bool :=
  c.isAlpha || c.isDigit || c == Char.ofNat 46 || c == Char.ofNat 42
    || c == Char.ofNat 64 || c == Char.ofNat 95 || c == Char.ofNat 45

/-- `validateSAN`: the DNS-name-or-wildcard grammar with length ≤ 253. -/
def validateSAN (san : String) : Bool :=
  !san.data.isEmpty && san.data.all sanChar && san.length ≤ 253

/-- `SAFE_HASH_ALGORITHMS` — note that the source includes SHA1. -/
def SAFE_HASH_ALGORITHMS : List String := ["SHA256", "SHA384", "SHA512", "SHA1"]

/-- `VALID_KEY_SIZES`. -/
def VALID_KEY_SIZES : List Nat := [2048, 4096]

/-- The result of a gateway call as seen by the controller (`error` is ""
when absent, matching the JS truthiness check on it). -/
structure PSResult where
  success : Bool
  output : String
  error : String
deriving DecidableEq, Repr

/-- `updateWorkflowStep`: update the first step with the given name —
set its status, stamp `completedAt` when completed, and record the error
text when a non-empty one is supplied. -/
def updateStepIn : List WorkflowStep → String → StepStatus → Option String → Int →
    List WorkflowStep
  | [], _, _, _, _ => []
  | s :: rest, name, st, err, now =>
      if s.step = name then
        { s with
          status := st
          completedAt := if st = StepStatus.completed then some now else s.completedAt
          error :=
            match err with
            | some e => if e ≠ "" then some e else s.error
            | none => s.error } :: rest
      else s :: updateStepIn rest name st err now

/-- The request body of `createCSR` (fields with their defaults applied
by the destructuring). -/
structure CreateInput where
  commonName : String
  subjectAlternativeNames : List String
  subject : SubjectFields
  keySize : Nat
  keyAlgorithm : String
  hashAlgorithm : String
  templateName : Option String
  targetCAId : Option String
  targetServerFqdn : Option String
deriving DecidableEq, Repr

/-- `createCSR`: requires a common name, then creates a draft CSR with the
three workflow steps seeded pending. (The referential checks on
targetCAId/targetServerId are store lookups, out of the entity logic.) -/
def createCSR (input : CreateInput) : Except String CSRRequest :=
  if input.commonName = "" then Except.error "Common name is required"
  else
    Except.ok
      { commonName := input.commonName
        subjectAlternativeNames := input.subjectAlternativeNames
        subject := input.subject
        keySize := input.keySize
        keyAlgorithm := input.keyAlgorithm
        hashAlgorithm := input.hashAlgorithm
        templateName := input.templateName
        targetCAId := input.targetCAId
        targetServerFqdn := input.targetServerFqdn
        status := CSRStatus.draft
        csrPEM := ""
        privateKeyLocation := ""
        errorMessage := ""
        processedAt := none
        workflowSteps :=
          [⟨"Generate CSR", StepStatus.pending, none, none⟩,
           ⟨"Submit to CA", StepStatus.pending, none, none⟩,
           ⟨"Install Certificate", StepStatus.pending, none, none⟩] }

/-- The whitelisted update fields of `updateCSR` (absent = not supplied). -/
structure UpdateFields where
  commonName : Option String
  subjectAlternativeNames : Option (List String)
  subject : Option SubjectFields
  keySize : Option Nat
  keyAlgorithm : Option String
  hashAlgorithm : Option String
  templateName : Option (Option String)
  targetCAId : Option (Option String)
  targetServerFqdn : Option (Option String)
deriving DecidableEq, Repr

/-- `updateCSR`: only draft CSRs may be updated; supplied whitelisted
fields are applied. Returns the (possibly unchanged) CSR and whether the
update was applied. -/
def updateCSR (csr : CSRRequest) (u : UpdateFields) : CSRRequest × Bool :=
  if csr.status ≠ CSRStatus.draft then (csr, false)
  else
    ({ csr with
        commonName := u.commonName.getD csr.commonName
        subjectAlternativeNames := u.subjectAlternativeNames.getD csr.subjectAlternativeNames
        subject := u.subject.getD csr.subject
        keySize := u.keySize.getD csr.keySize
        keyAlgorithm := u.keyAlgorithm.getD csr.keyAlgorithm
        hashAlgorithm := u.hashAlgorithm.getD csr.hashAlgorithm
        templateName := u.templateName.getD csr.templateName
        targetCAId := u.targetCAId.getD csr.targetCAId
        targetServerFqdn := u.targetServerFqdn.getD csr.targetServerFqdn }, true)

/-- Check one optional subject field as the generate loop does: a set,
truthy value failing `validateSubjectField` is rejected. -/
def badSubjectField (v : Option String) : Bool :=
  match v with
  | some s => s ≠ "" && !validateSubjectField s
  | none => false

/-- The first invalid subject field in the loop's fixed order, if any. -/
def firstBadSubjectField (subj : SubjectFields) : Option String :=
  if badSubjectField subj.organization then some "organization"
  else if badSubjectField subj.organizationalUnit then some "organizationalUnit"
  else if badSubjectField subj.locality then some "locality"
  else if badSubjectField subj.state then some "state"
  else if badSubjectField subj.country then some "country"
  else none

/-- How a `generateCSR` request ended: rejected before the gateway call
(entity state as recorded at that point), or a gateway call that
succeeded / failed. -/
inductive GenOutcome
  | rejected (error : String)
  | generated
  | genFailed (error : String)
deriving DecidableEq, Repr

/-- `generateCSR`: state guard and field validation, then the pre-call
status/step mutation, the target-hostname check, and the gateway call
(whose result is the `gw` input); on success store csrPEM and complete the
step, on failure record the error, fail the step and the CSR. -/
def generateCSR (now : Int) (csr : CSRRequest) (gw : PSResult) : CSRRequest × GenOutcome :=
  if csr.status ≠ CSRStatus.draft ∧ csr.status ≠ CSRStatus.pending then
    (csr, GenOutcome.rejected "CSR already generated or processed")
  else if !validateSubjectField csr.commonName then
    (csr, GenOutcome.rejected "Invalid common name: contains disallowed characters")
  else if csr.hashAlgorithm ∉ SAFE_HASH_ALGORITHMS then
    (csr, GenOutcome.rejected
      ("Invalid hash algorithm. Allowed: " ++ String.intercalate ", " SAFE_HASH_ALGORITHMS))
  else if csr.keySize ∉ VALID_KEY_SIZES then
    (csr, GenOutcome.rejected "Invalid key size. Allowed: 2048, 4096")
  else
    match firstBadSubjectField csr.subject with
    | some f => (csr, GenOutcome.rejected ("Invalid subject field " ++ f))
    | none =>
        match csr.subjectAlternativeNames.find? (fun s => !validateSAN s) with
        | some s => (csr, GenOutcome.rejected ("Invalid SAN " ++ s))
        | none =>
            let c1 := { csr with
              status := CSRStatus.pending
              workflowSteps :=
                updateStepIn csr.workflowSteps "Generate CSR" StepStatus.pending none now }
            let computerName := csr.targetServerFqdn.getD "localhost"
            if computerName ≠ "localhost" ∧ !validateHostname computerName then
              (c1, GenOutcome.rejected "Invalid target server hostname")
            else if gw.success then
              ({ c1 with
                  csrPEM := gw.output
                  privateKeyLocation := computerName ++ ":LocalMachine\\My"
                  workflowSteps :=
                    updateStepIn c1.workflowSteps "Generate CSR" StepStatus.completed none now },
                GenOutcome.generated)
            else
              ({ c1 with
                  errorMessage := gw.error
                  workflowSteps :=
                    updateStepIn c1.workflowSteps "Generate CSR" StepStatus.failed (some gw.error) now
                  status := CSRStatus.failed },
                GenOutcome.genFailed gw.error)

/-- How a `submitCSRToCA` request ended. -/
inductive SubmitOutcome
  | rejected (error : String)
  | submitted
  | submitFailed (error : String)
deriving DecidableEq, Repr

/-- `submitCSRToCA`: requires a generated csrPEM and a target CA, marks the
CSR submitted with the "Submit to CA" step pending, then the gateway call;
on success complete the step and stamp `processedAt`, on failure record the
error, fail the step and the CSR. -/
def submitCSRToCA (now : Int) (csr : CSRRequest) (gw : PSResult) :
    CSRRequest × SubmitOutcome :=
  if csr.csrPEM = "" then (csr, SubmitOutcome.rejected "CSR must be generated first")
  else
    match csr.targetCAId with
    | none => (csr, SubmitOutcome.rejected "Target CA must be specified")
    | some _ =>
        let c1 := { csr with
          status := CSRStatus.submitted
          workflowSteps :=
            updateStepIn csr.workflowSteps "Submit to CA" StepStatus.pending none now }
        if gw.success then
          ({ c1 with
              workflowSteps :=
                updateStepIn c1.workflowSteps "Submit to CA" StepStatus.completed none now
              processedAt := some now },
            SubmitOutcome.submitted)
        else
          ({ c1 with
              errorMessage := gw.error
              workflowSteps :=
                updateStepIn c1.workflowSteps "Submit to CA" StepStatus.failed (some gw.error) now
              status := CSRStatus.failed },
            SubmitOutcome.submitFailed gw.error)

/-- How a `deleteCSR` request ended. -/
inductive DeleteOutcome
  | refused (error : String)
  | deleted
deriving DecidableEq, Repr

/-- `deleteCSR`: submitted CSRs cannot be deleted; all others are removed. -/
def deleteCSR (csr : CSRRequest) : DeleteOutcome :=
  if csr.status = CSRStatus.submitted then
    DeleteOutcome.refused "Cannot delete submitted CSR"
  else DeleteOutcome.deleted

/-- One workflow-engine operation on an existing CSR (the gateway result
relevant to the operation is carried as an input). -/
inductive CSROp
  | update (u : UpdateFields)
  | generate (now : Int) (gw : PSResult)
  | submit (now : Int) (gw : PSResult)
deriving Repr

/-- Apply one operation to the persisted entity (rejected operations leave
it in the state the handler last saved). -/
def applyOp (csr : CSRRequest) (op : CSROp) : CSRRequest :=
  match op with
  | CSROp.update u => (updateCSR csr u).1
  | CSROp.generate now gw => (generateCSR now csr gw).1
  | CSROp.submit now gw => (submitCSRToCA now csr gw).1

/-- Run a sequence of operations from a given entity state. -/
def runOps (csr : CSRRequest) (ops : List CSROp) : CSRRequest :=
  ops.foldl applyOp csr

/-- The status of the "Generate CSR" workflow step. -/
def genStepStatus (csr : CSRRequest) : Option StepStatus :=
  (csr.workflowSteps.find? (fun s => s.step == "Generate CSR")).map (fun s => s.status)

/-- An operation whose gateway result, when successful, carries non-empty
output (true of the generation script, which prints the CSR file or throws). -/
def opOutputNonEmpty : CSROp → Prop
  | CSROp.generate _ gw => gw.success = true → gw.output ≠ ""
  | _ => True

/-- The workflowSteps shape seeded at creation: exactly the three named
steps, in order (their sub-statuses are unconstrained). -/
def StepShape (c : CSRRequest) : Prop :=
  ∃ g sub inst, c.workflowSteps = [g, sub, inst] ∧
    g.step = "Generate CSR" ∧ sub.step = "Submit to CA" ∧
    inst.step = "Install Certificate"

/-! ## Concrete instances (used by the witness and counterexample theorems) -/

/-- An empty subject sub-document. -/
def noSubject : SubjectFields := ⟨none, none, none, none, none⟩

/-- A well-formed create request (defaults as applied by the destructuring). -/
def baseInput : CreateInput :=
  ⟨"test.example.com", [], noSubject, 2048, "RSA", "SHA256", none, none, none⟩

/-- The draft CSR that `createCSR baseInput` produces. -/
def baseCSR : CSRRequest :=
  { commonName := "test.example.com"
    subjectAlternativeNames := []
    subject := noSubject
    keySize := 2048
    keyAlgorithm := "RSA"
    hashAlgorithm := "SHA256"
    templateName := none
    targetCAId := none
    targetServerFqdn := none
    status := CSRStatus.draft
    csrPEM := ""
    privateKeyLocation := ""
    errorMessage := ""
    processedAt := none
    workflowSteps :=
      [⟨"Generate CSR", StepStatus.pending, none, none⟩,
       ⟨"Submit to CA", StepStatus.pending, none, none⟩,
       ⟨"Install Certificate", StepStatus.pending, none, none⟩] }

/-- The same draft CSR with hashAlgorithm SHA1. -/
def sha1CSR : CSRRequest := { baseCSR with hashAlgorithm := "SHA1" }

/-- The same draft CSR with hashAlgorithm MD5. -/
def md5CSR : CSRRequest := { baseCSR with hashAlgorithm := "MD5" }

/-- A successful gateway result carrying a generated CSR. -/
def okPS : PSResult := ⟨true, "PEMDATA", ""⟩

/-- A failed gateway result. -/
def failPS : PSResult := ⟨false, "", "certreq failed"⟩

/-- A string containing a single quote (spelled via its character code). -/
def quoteyValue : String := String.mk [Char.ofNat 97, squote, Char.ofNat 98]

/-- Notification settings with one enabled 7-day threshold. -/
def notifSettings : NotificationSettings := ⟨true, [⟨7, true⟩]⟩

/-- A mail oracle on which every send succeeds. -/
def alwaysSend : String → Nat → Bool := fun _ _ => true

/-- An active certificate expiring in exactly 7 days from time 0. -/
def cert7 : Certificate := ⟨"SN1", "web01", CertStatus.active, 7 * msPerDay, []⟩

/-- A revoked certificate inside the 7-day window. -/
def revokedCert : Certificate := ⟨"SNR", "web02", CertStatus.revoked, 7 * msPerDay, []⟩

/-- An active certificate with validTo exactly now + 30 days (now = 0). -/
def certAt30 : Certificate := ⟨"SA", "a", CertStatus.active, 30 * msPerDay, []⟩

/-- An active certificate with validTo at now + 30 days + 1 second (now = 0). -/
def certPast30 : Certificate := ⟨"SB", "b", CertStatus.active, 30 * msPerDay + 1000, []⟩

/-! # Theorems -/

/-! ## Gateway: allow-list and single-quote escaping (C2, C3) -/

/-- Escaping the empty list yields the empty list only for the empty list. -/
theorem escapeQuoteChars_eq_nil {l : List Char} : escapeQuoteChars l = [] ↔ l = [] := by
  cases l with
  | nil => simp [escapeQuoteChars]
  | cons c rest =>
      simp only [escapeQuoteChars]
      split_ifs <;> simp

/-- Core round trip: the shell's single-quoted-body parse of an escaped
string followed by the closing quote recovers the original characters. -/
theorem psBody_roundtrip (l : List Char) :
    psSingleQuotedBody (escapeQuoteChars l ++ [squote]) = some (l, []) := by
  induction l with
  | nil => simp [escapeQuoteChars, psSingleQuotedBody]
  | cons c rest ih =>
      by_cases hc : c = squote
      · subst hc
        simp only [escapeQuoteChars, if_pos rfl, List.cons_append]
        simp [psSingleQuotedBody, ih]
      · simp only [escapeQuoteChars, if_neg hc, List.cons_append]
        cases h : escapeQuoteChars rest with
        | nil =>
            have hrest : rest = [] := escapeQuoteChars_eq_nil.mp h
            subst hrest
            simp [psSingleQuotedBody, hc]
        | cons d ds =>
            rw [h] at ih
            simp only [List.cons_append]
            simp [psSingleQuotedBody, hc]
            exact ih

/-- C2: for every scriptFile identifier outside the Command Gateway's
allow-list, `executePowerShell` resolves a script-not-allowed failure
result and spawns no OS process. -/
theorem gateway_rejects_unlisted_script (o : PowerShellOptions) (sf : String)
    (hsf : o.scriptFile = some sf) (hnot : sf ∉ ALLOWED_SCRIPTS) :
    executePowerShell o = GatewayOutcome.failure ("Script not allowed: " ++ sf) ∧
    ∀ cmd, executePowerShell o ≠ GatewayOutcome.spawn cmd := by
  have h : executePowerShell o = GatewayOutcome.failure ("Script not allowed: " ++ sf) := by
    unfold executePowerShell
    rw [hsf]
    simp [hnot]
  exact ⟨h, fun cmd => by rw [h]; simp⟩

/-- Witness for C2 at the traversal string from the spec. -/
theorem gateway_rejects_unlisted_script_witness :
    executePowerShell ⟨none, some "../../etc/passwd", [], none⟩ =
      GatewayOutcome.failure ("Script not allowed: " ++ "../../etc/passwd") :=
  (gateway_rejects_unlisted_script ⟨none, some "../../etc/passwd", [], none⟩
    "../../etc/passwd" rfl (by decide)).1

/-- C3: doubling each embedded single quote and wrapping in single quotes
is a round trip — the target shell parses the escaped, quoted literal back
to exactly the original string — and the gateway embeds every string
parameter value exactly this way. -/
theorem escape_single_quote_roundtrip (s : String) (k : String)
    (hk : validParamKey k = true) :
    parsePSSingleQuoted (singleQuoteWrap (sanitizePSString s)) = some (s, "") ∧
    formatParam k (PSValue.str s) =
      Except.ok (some ("-" ++ k ++ " " ++ singleQuoteWrap (sanitizePSString s))) := by
  constructor
  · show parsePSSingleQuoted (String.mk (squote :: escapeQuoteChars s.data ++ [squote])) = _
    unfold parsePSSingleQuoted
    simp [psBody_roundtrip]
  · unfold formatParam
    simp [hk]

/-- Witness for C3 at a value containing a single quote. -/
theorem escape_single_quote_roundtrip_witness :
    parsePSSingleQuoted (singleQuoteWrap (sanitizePSString quoteyValue)) =
      some (quoteyValue, "") ∧
    formatParam "ConfigString" (PSValue.str quoteyValue) =
      Except.ok (some ("-" ++ "ConfigString" ++ " "
        ++ singleQuoteWrap (sanitizePSString quoteyValue))) :=
  ⟨(escape_single_quote_roundtrip quoteyValue "ConfigString" (by decide)).1,
   (escape_single_quote_roundtrip quoteyValue "ConfigString" (by decide)).2⟩

/-! ## CSR workflow: hash-algorithm validation (C1) -/

/-- C1 counterexample: the workflow boundary accepts SHA1 — a draft CSR
with hashAlgorithm SHA1 passes validation and the gateway is invoked
(outcome `generated`, csrPEM stored), instead of being rejected. -/
theorem sha1_accepted_at_workflow :
    "SHA1" ∈ SAFE_HASH_ALGORITHMS ∧
    (generateCSR 0 sha1CSR okPS).2 = GenOutcome.generated ∧
    (generateCSR 0 sha1CSR okPS).1.csrPEM = "PEMDATA" := by
  refine ⟨by decide, by decide, by decide⟩

/-- C1 amended: the hash algorithms accepted at the workflow boundary are
SHA256, SHA384, SHA512 and SHA1; a CSR whose hashAlgorithm is any other
value is rejected with a validation error, leaving the entity untouched,
before the gateway is invoked (the result does not depend on `gw`). -/
theorem generate_rejects_unknown_hash (now : Int) (csr : CSRRequest) (gw : PSResult)
    (hst : csr.status = CSRStatus.draft ∨ csr.status = CSRStatus.pending)
    (hcn : validateSubjectField csr.commonName = true)
    (hh : csr.hashAlgorithm ∉ SAFE_HASH_ALGORITHMS) :
    generateCSR now csr gw =
      (csr, GenOutcome.rejected
        ("Invalid hash algorithm. Allowed: "
          ++ String.intercalate ", " SAFE_HASH_ALGORITHMS)) := by
  unfold generateCSR
  rcases hst with h | h <;> simp [h, hcn, hh]

/-- Witness for C1's amended claim at hashAlgorithm MD5. -/
theorem generate_rejects_unknown_hash_witness :
    generateCSR 0 md5CSR okPS =
      (md5CSR, GenOutcome.rejected
        ("Invalid hash algorithm. Allowed: "
          ++ String.intercalate ", " SAFE_HASH_ALGORITHMS)) :=
  generate_rejects_unknown_hash 0 md5CSR okPS (Or.inl rfl) (by decide) (by decide)

/-! ## CSR workflow: delete guard (C5) -/

/-- C5: delete is refused (with the specific error) exactly when the CSR
status is submitted; draft, pending, failed and cancelled CSRs are removed. -/
theorem delete_refused_iff_submitted (csr : CSRRequest) :
    (deleteCSR csr = DeleteOutcome.refused "Cannot delete submitted CSR" ↔
      csr.status = CSRStatus.submitted) ∧
    (csr.status = CSRStatus.draft ∨ csr.status = CSRStatus.pending ∨
        csr.status = CSRStatus.failed ∨ csr.status = CSRStatus.cancelled →
      deleteCSR csr = DeleteOutcome.deleted) := by
  unfold deleteCSR
  constructor
  · split_ifs with h <;> simp [h]
  · intro hs
    rcases hs with h | h | h | h <;> simp [h]

/-- Witness for C5 at a submitted and a draft CSR. -/
theorem delete_refused_iff_submitted_witness :
    deleteCSR { baseCSR with status := CSRStatus.submitted } =
      DeleteOutcome.refused "Cannot delete submitted CSR" ∧
    deleteCSR baseCSR = DeleteOutcome.deleted :=
  ⟨(delete_refused_iff_submitted { baseCSR with status := CSRStatus.submitted }).1.mpr rfl,
   (delete_refused_iff_submitted baseCSR).2 (Or.inl rfl)⟩

/-! ## Status reconciliation (C6, C7, C9) -/

/-- The collection part of a reconciliation run is the per-certificate
phase composition mapped over the collection. -/
theorem updateCertificateStatuses_fst (now : Int) (certs : List Certificate) :
    (updateCertificateStatuses now certs).1 = certs.map (reconcileCert now) := by
  simp [updateCertificateStatuses, updateMany, reconcileCert, List.map_map]

/-- Phase 1, applied to an explicit record. -/
theorem expiredPhase_mk (now : Int) (sn cn : String) (st : CertStatus) (vt : Int)
    (ns : List NotificationRecord) :
    expiredPhase now ⟨sn, cn, st, vt, ns⟩ =
      if (st ≠ CertStatus.expired ∧ st ≠ CertStatus.revoked) ∧ vt < now
      then (⟨sn, cn, CertStatus.expired, vt, ns⟩, true) else (⟨sn, cn, st, vt, ns⟩, false) := by
  simp only [expiredPhase]

/-- Phase 2, applied to an explicit record. -/
theorem expiringPhase_mk (now : Int) (sn cn : String) (st : CertStatus) (vt : Int)
    (ns : List NotificationRecord) :
    expiringPhase now ⟨sn, cn, st, vt, ns⟩ =
      if st = CertStatus.active ∧ now ≤ vt ∧ vt ≤ now + 30 * msPerDay
      then (⟨sn, cn, CertStatus.expiring, vt, ns⟩, true) else (⟨sn, cn, st, vt, ns⟩, false) := by
  simp only [expiringPhase]

/-- Phase 3, applied to an explicit record. -/
theorem activePhase_mk (now : Int) (sn cn : String) (st : CertStatus) (vt : Int)
    (ns : List NotificationRecord) :
    activePhase now ⟨sn, cn, st, vt, ns⟩ =
      if st = CertStatus.expiring ∧ vt > now + 30 * msPerDay
      then (⟨sn, cn, CertStatus.active, vt, ns⟩, true) else (⟨sn, cn, st, vt, ns⟩, false) := by
  simp only [activePhase]

/-- One reconciliation run on one certificate: the new status as a single
conditional chain (expired takes precedence, then the 30-day window,
then the window extension; everything else — in particular revoked —
is untouched). -/
theorem reconcileCert_mk (now : Int) (sn cn : String) (st : CertStatus) (vt : Int)
    (ns : List NotificationRecord) :
    reconcileCert now ⟨sn, cn, st, vt, ns⟩ =
      ⟨sn, cn,
        if (st ≠ CertStatus.expired ∧ st ≠ CertStatus.revoked) ∧ vt < now then CertStatus.expired
        else if st = CertStatus.active ∧ now ≤ vt ∧ vt ≤ now + 30 * msPerDay then
          CertStatus.expiring
        else if st = CertStatus.expiring ∧ vt > now + 30 * msPerDay then CertStatus.active
        else st, vt, ns⟩ := by
  simp only [reconcileCert]
  rw [expiredPhase_mk]
  by_cases h1 : (st ≠ CertStatus.expired ∧ st ≠ CertStatus.revoked) ∧ vt < now
  · rw [if_pos h1]
    dsimp only
    rw [expiringPhase_mk, if_neg (by simp)]
    dsimp only
    rw [activePhase_mk, if_neg (by simp)]
    rw [if_pos h1]
  · rw [if_neg h1]
    dsimp only
    rw [expiringPhase_mk]
    by_cases h2 : st = CertStatus.active ∧ now ≤ vt ∧ vt ≤ now + 30 * msPerDay
    · rw [if_pos h2]
      dsimp only
      rw [activePhase_mk,
        if_neg (by rintro ⟨-, hgt⟩; exact absurd h2.2.2 (not_le.mpr hgt))]
      rw [if_neg h1, if_pos h2]
    · rw [if_neg h2]
      dsimp only
      rw [activePhase_mk]
      by_cases h3 : st = CertStatus.expiring ∧ vt > now + 30 * msPerDay
      · rw [if_pos h3, if_neg h1, if_neg h2, if_pos h3]
      · rw [if_neg h3, if_neg h1, if_neg h2, if_neg h3]

/-- A certificate no phase matches is not mutated by a run. -/
theorem certMutations_eq_zero (now : Int) (sn cn : String) (st : CertStatus) (vt : Int)
    (ns : List NotificationRecord)
    (h1 : ¬((st ≠ CertStatus.expired ∧ st ≠ CertStatus.revoked) ∧ vt < now))
    (h2 : ¬(st = CertStatus.active ∧ now ≤ vt ∧ vt ≤ now + 30 * msPerDay))
    (h3 : ¬(st = CertStatus.expiring ∧ vt > now + 30 * msPerDay)) :
    certMutations now ⟨sn, cn, st, vt, ns⟩ = 0 := by
  simp only [certMutations]
  rw [expiredPhase_mk, if_neg h1]
  dsimp only
  rw [expiringPhase_mk, if_neg h2]
  dsimp only
  rw [activePhase_mk, if_neg h3]
  simp

/-- After a reconciliation run at time `now`, no phase matches again at
the same time: the second run mutates nothing on this certificate. -/
theorem certMutations_reconcile (now : Int) (c : Certificate) :
    certMutations now (reconcileCert now c) = 0 := by
  obtain ⟨sn, cn, st, vt, ns⟩ := c
  rw [reconcileCert_mk]
  apply certMutations_eq_zero <;>
    · split_ifs <;> simp_all

/-- A reconciliation run on a cons cell. -/
theorem updateCertificateStatuses_cons (now : Int) (c : Certificate) (cs : List Certificate) :
    updateCertificateStatuses now (c :: cs) =
      (reconcileCert now c :: (updateCertificateStatuses now cs).1,
        certMutations now c + (updateCertificateStatuses now cs).2) := by
  refine Prod.ext ?_ ?_
  · simp [updateCertificateStatuses, updateMany, reconcileCert]
  · simp only [updateCertificateStatuses, updateMany, certMutations, List.map_cons,
      List.countP_cons]
    omega

/-- The mutation count of a run is the sum of the per-certificate counts. -/
theorem updateCertificateStatuses_count (now : Int) (certs : List Certificate) :
    (updateCertificateStatuses now certs).2 = (certs.map (certMutations now)).sum := by
  induction certs with
  | nil => rfl
  | cons c cs ih => rw [updateCertificateStatuses_cons]; simp [ih]

/-- C6: `reconcileStatuses` is idempotent at a fixed time — running the
three-phase reconciliation again immediately, with no time elapsed,
reports zero mutated documents. -/
theorem reconcile_second_run_mutates_zero (now : Int) (certs : List Certificate) :
    (updateCertificateStatuses now (updateCertificateStatuses now certs).1).2 = 0 := by
  rw [updateCertificateStatuses_count, updateCertificateStatuses_fst, List.map_map]
  refine List.sum_eq_zero ?_
  intro x hx
  simp only [List.mem_map, Function.comp_apply] at hx
  obtain ⟨c, -, rfl⟩ := hx
  exact certMutations_reconcile now c

/-- C7: the 30-day boundary is inclusive — an active certificate with
validTo exactly now + 30 days is reclassified expiring, while one at
now + 30 days + 1 second ends the run active (it stays active, and an
expiring one is moved back to active). -/
theorem expiring_boundary_inclusive (now : Int) (c d : Certificate)
    (hc : c.status = CertStatus.active) (hcv : c.validTo = now + 30 * msPerDay)
    (hd : d.status = CertStatus.active ∨ d.status = CertStatus.expiring)
    (hdv : d.validTo = now + 30 * msPerDay + 1000) :
    (updateCertificateStatuses now [c, d]).1 =
      [{ c with status := CertStatus.expiring }, { d with status := CertStatus.active }] := by
  have hms : msPerDay = 86400000 := rfl
  obtain ⟨sn, cn, st, vt, ns⟩ := c
  obtain ⟨sn2, cn2, st2, vt2, ns2⟩ := d
  dsimp only at hc hcv hd hdv
  subst hc
  subst hcv
  rw [updateCertificateStatuses_cons, updateCertificateStatuses_cons]
  dsimp only
  rw [reconcileCert_mk, reconcileCert_mk]
  rw [if_neg (by rintro ⟨-, hlt⟩; omega)]
  rw [if_pos ⟨rfl, by omega, by omega⟩]
  rcases hd with hst2 | hst2 <;> subst hst2 <;> subst hdv
  · rw [if_neg (by rintro ⟨-, hlt⟩; omega)]
    rw [if_neg (by rintro ⟨-, -, hle⟩; omega)]
    rw [if_neg (by rintro ⟨hctor, -⟩; exact absurd hctor (by simp))]
    simp [updateCertificateStatuses, updateMany]
  · rw [if_neg (by rintro ⟨-, hlt⟩; omega)]
    rw [if_neg (by rintro ⟨hctor, -⟩; exact absurd hctor (by simp))]
    rw [if_pos ⟨rfl, by omega⟩]
    simp [updateCertificateStatuses, updateMany]

/-- Witness for C7 at now = 0 with the two concrete boundary certificates. -/
theorem expiring_boundary_inclusive_witness :
    (updateCertificateStatuses 0 [certAt30, certPast30]).1 =
      [{ certAt30 with status := CertStatus.expiring },
       { certPast30 with status := CertStatus.active }] :=
  expiring_boundary_inclusive 0 certAt30 certPast30 rfl (by decide) (Or.inl rfl) (by decide)

/-- A revoked certificate is untouched by one reconciliation run. -/
theorem reconcileCert_revoked (now : Int) (c : Certificate)
    (h : c.status = CertStatus.revoked) : reconcileCert now c = c := by
  obtain ⟨sn, cn, st, vt, ns⟩ := c
  dsimp only at h
  subst h
  rw [reconcileCert_mk]
  simp

/-- A reconciliation run preserves the collection's length. -/
theorem updateCertificateStatuses_length (now : Int) (certs : List Certificate) :
    (updateCertificateStatuses now certs).1.length = certs.length := by
  rw [updateCertificateStatuses_fst, List.length_map]

/-- C9: revoked is sticky — across any number of reconciliation runs at
arbitrary times, a revoked certificate is never overwritten (it is still
exactly the same document, in particular still revoked). -/
theorem revoked_sticky (ts : List Int) (certs : List Certificate) (i : Nat)
    (h : i < certs.length) (hrev : (certs.get ⟨i, h⟩).status = CertStatus.revoked) :
    ∃ h2 : i < (runReconciles ts certs).length,
      (runReconciles ts certs).get ⟨i, h2⟩ = certs.get ⟨i, h⟩ := by
  induction ts generalizing certs with
  | nil => exact ⟨h, rfl⟩
  | cons t ts ih =>
      have hlen : i < (updateCertificateStatuses t certs).1.length := by
        rw [updateCertificateStatuses_length]; exact h
      have hstep : (updateCertificateStatuses t certs).1.get ⟨i, hlen⟩ = certs.get ⟨i, h⟩ := by
        simp only [List.get_eq_getElem]
        simp only [updateCertificateStatuses_fst, List.getElem_map]
        exact reconcileCert_revoked t _ (by simpa using hrev)
      have hrev2 : ((updateCertificateStatuses t certs).1.get ⟨i, hlen⟩).status =
          CertStatus.revoked := by rw [hstep]; exact hrev
      obtain ⟨h3, hh⟩ := ih (updateCertificateStatuses t certs).1 hlen hrev2
      refine ⟨h3, ?_⟩
      show (runReconciles ts (updateCertificateStatuses t certs).1).get ⟨i, h3⟩ =
        certs.get ⟨i, h⟩
      rw [hh, hstep]

/-- Witness for C9: a revoked certificate survives two runs unchanged. -/
theorem revoked_sticky_witness :
    ∃ h2 : 0 < (runReconciles [0, 86400000] [revokedCert]).length,
      (runReconciles [0, 86400000] [revokedCert]).get ⟨0, h2⟩ =
        [revokedCert].get ⟨0, by decide⟩ :=
  revoked_sticky [0, 86400000] [revokedCert] 0 (by decide) (by decide)

/-! ## CSR workflow: csrPEM / Generate-CSR-step invariant (C4) -/

/-- Updating the "Generate CSR" step of a well-shaped list updates the
head in place: its name survives and its status becomes the given one. -/
theorem updateStepIn_first (g sub inst : WorkflowStep) (hg : g.step = "Generate CSR")
    (st : StepStatus) (err : Option String) (now : Int) :
    ∃ g', updateStepIn [g, sub, inst] "Generate CSR" st err now = [g', sub, inst] ∧
      g'.step = g.step ∧ g'.status = st := by
  simp only [updateStepIn, if_pos hg]
  exact ⟨_, rfl, rfl, rfl⟩

/-- Updating the "Submit to CA" step of a well-shaped list leaves the
"Generate CSR" head untouched. -/
theorem updateStepIn_second (g sub inst : WorkflowStep) (hg : g.step = "Generate CSR")
    (hsub : sub.step = "Submit to CA") (st : StepStatus) (err : Option String) (now : Int) :
    ∃ sub', updateStepIn [g, sub, inst] "Submit to CA" st err now = [g, sub', inst] ∧
      sub'.step = sub.step := by
  have hne : ¬(g.step = "Submit to CA") := by rw [hg]; decide
  simp only [updateStepIn, if_neg hne, if_pos hsub]
  exact ⟨_, rfl, rfl⟩

/-- On a well-shaped step list the "Generate CSR" status is the head's. -/
theorem genStepStatus_of_shape (c : CSRRequest) (g sub inst : WorkflowStep)
    (hsteps : c.workflowSteps = [g, sub, inst]) (hg : g.step = "Generate CSR") :
    genStepStatus c = some g.status := by
  unfold genStepStatus
  rw [hsteps, List.find?_cons_of_pos _ (by simp [hg])]
  rfl

/-- `updateCSR` preserves the step shape and the csrPEM/step invariant
(it whitelists neither csrPEM nor workflowSteps). -/
theorem update_preserves (u : UpdateFields) (c : CSRRequest)
    (hshape : StepShape c)
    (hinv : genStepStatus c = some StepStatus.completed → c.csrPEM ≠ "") :
    StepShape (updateCSR c u).1 ∧
      (genStepStatus (updateCSR c u).1 = some StepStatus.completed →
        (updateCSR c u).1.csrPEM ≠ "") := by
  unfold updateCSR
  split_ifs with h
  · exact ⟨hshape, hinv⟩
  · exact ⟨hshape, hinv⟩

/-- `generateCSR` preserves the step shape and — when successful gateway
results carry non-empty output — the direction "step completed ⟹ csrPEM
non-empty" of the invariant. -/
theorem generate_preserves (now : Int) (gw : PSResult) (c : CSRRequest)
    (hout : gw.success = true → gw.output ≠ "")
    (hshape : StepShape c)
    (hinv : genStepStatus c = some StepStatus.completed → c.csrPEM ≠ "") :
    StepShape (generateCSR now c gw).1 ∧
      (genStepStatus (generateCSR now c gw).1 = some StepStatus.completed →
        (generateCSR now c gw).1.csrPEM ≠ "") := by
  obtain ⟨g, sub, inst, hsteps, hg, hsub, hinst⟩ := hshape
  unfold generateCSR
  by_cases h1 : c.status ≠ CSRStatus.draft ∧ c.status ≠ CSRStatus.pending
  · rw [if_pos h1]
    exact ⟨⟨g, sub, inst, hsteps, hg, hsub, hinst⟩, hinv⟩
  rw [if_neg h1]
  by_cases h2 : (!validateSubjectField c.commonName) = true
  · rw [if_pos h2]
    exact ⟨⟨g, sub, inst, hsteps, hg, hsub, hinst⟩, hinv⟩
  rw [if_neg h2]
  by_cases h3 : c.hashAlgorithm ∉ SAFE_HASH_ALGORITHMS
  · rw [if_pos h3]
    exact ⟨⟨g, sub, inst, hsteps, hg, hsub, hinst⟩, hinv⟩
  rw [if_neg h3]
  by_cases h4 : c.keySize ∉ VALID_KEY_SIZES
  · rw [if_pos h4]
    exact ⟨⟨g, sub, inst, hsteps, hg, hsub, hinst⟩, hinv⟩
  rw [if_neg h4]
  cases hbad : firstBadSubjectField c.subject with
  | some f => exact ⟨⟨g, sub, inst, hsteps, hg, hsub, hinst⟩, hinv⟩
  | none =>
      cases hsan : c.subjectAlternativeNames.find? (fun s => !validateSAN s) with
      | some s => exact ⟨⟨g, sub, inst, hsteps, hg, hsub, hinst⟩, hinv⟩
      | none =>
          obtain ⟨g1, hupd1, hstep1, hstat1⟩ :=
            updateStepIn_first g sub inst hg StepStatus.pending none now
          dsimp only
          split_ifs with h5 h6
          · -- invalid target hostname: saved state has the step pending
            refine ⟨⟨g1, sub, inst, ?_, hstep1.trans hg, hsub, hinst⟩, ?_⟩
            · show updateStepIn c.workflowSteps "Generate CSR" StepStatus.pending none now
                  = [g1, sub, inst]
              rw [hsteps, hupd1]
            · intro hcompl
              simp only [genStepStatus] at hcompl
              rw [hsteps, hupd1] at hcompl
              rw [List.find?_cons_of_pos _ (by simp [hstep1.trans hg])] at hcompl
              simp [hstat1] at hcompl
          · -- gateway success: csrPEM := gw.output, step completed
            obtain ⟨g2, hupd2, hstep2, hstat2⟩ :=
              updateStepIn_first g1 sub inst (hstep1.trans hg) StepStatus.completed none now
            refine ⟨⟨g2, sub, inst, ?_, hstep2.trans (hstep1.trans hg), hsub, hinst⟩, ?_⟩
            · show updateStepIn
                  (updateStepIn c.workflowSteps "Generate CSR" StepStatus.pending none now)
                  "Generate CSR" StepStatus.completed none now = [g2, sub, inst]
              rw [hsteps, hupd1, hupd2]
            · intro _
              exact hout h6
          · -- gateway failure: step failed, CSR failed
            obtain ⟨g2, hupd2, hstep2, hstat2⟩ :=
              updateStepIn_first g1 sub inst (hstep1.trans hg) StepStatus.failed
                (some gw.error) now
            refine ⟨⟨g2, sub, inst, ?_, hstep2.trans (hstep1.trans hg), hsub, hinst⟩, ?_⟩
            · show updateStepIn
                  (updateStepIn c.workflowSteps "Generate CSR" StepStatus.pending none now)
                  "Generate CSR" StepStatus.failed (some gw.error) now = [g2, sub, inst]
              rw [hsteps, hupd1, hupd2]
            · intro hcompl
              simp only [genStepStatus] at hcompl
              rw [hsteps, hupd1, hupd2] at hcompl
              rw [List.find?_cons_of_pos _
                (by simp [hstep2.trans (hstep1.trans hg)])] at hcompl
              simp [hstat2] at hcompl

/-- `submitCSRToCA` touches only the "Submit to CA" step and never csrPEM,
so it preserves the shape and the invariant. -/
theorem submit_preserves (now : Int) (gw : PSResult) (c : CSRRequest)
    (hshape : StepShape c)
    (hinv : genStepStatus c = some StepStatus.completed → c.csrPEM ≠ "") :
    StepShape (submitCSRToCA now c gw).1 ∧
      (genStepStatus (submitCSRToCA now c gw).1 = some StepStatus.completed →
        (submitCSRToCA now c gw).1.csrPEM ≠ "") := by
  obtain ⟨g, sub, inst, hsteps, hg, hsub, hinst⟩ := hshape
  have hgenc := genStepStatus_of_shape c g sub inst hsteps hg
  unfold submitCSRToCA
  by_cases h1 : c.csrPEM = ""
  · rw [if_pos h1]
    exact ⟨⟨g, sub, inst, hsteps, hg, hsub, hinst⟩, hinv⟩
  rw [if_neg h1]
  cases htca : c.targetCAId with
  | none => exact ⟨⟨g, sub, inst, hsteps, hg, hsub, hinst⟩, hinv⟩
  | some ca =>
      obtain ⟨s1, hupd1, hstep1⟩ :=
        updateStepIn_second g sub inst hg hsub StepStatus.pending none now
      dsimp only
      split_ifs with h2
      · obtain ⟨s2, hupd2, hstep2⟩ :=
          updateStepIn_second g s1 inst hg (hstep1.trans hsub)
            StepStatus.completed none now
        refine ⟨⟨g, s2, inst, ?_, hg, hstep2.trans (hstep1.trans hsub), hinst⟩, ?_⟩
        · show updateStepIn
              (updateStepIn c.workflowSteps "Submit to CA" StepStatus.pending none now)
              "Submit to CA" StepStatus.completed none now = [g, s2, inst]
          rw [hsteps, hupd1, hupd2]
        · intro hcompl
          simp only [genStepStatus] at hcompl
          rw [hsteps, hupd1, hupd2] at hcompl
          rw [List.find?_cons_of_pos _ (by simp [hg])] at hcompl
          simp only [Option.map] at hcompl
          exact hinv (hgenc.trans hcompl)
      · obtain ⟨s2, hupd2, hstep2⟩ :=
          updateStepIn_second g s1 inst hg (hstep1.trans hsub)
            StepStatus.failed (some gw.error) now
        refine ⟨⟨g, s2, inst, ?_, hg, hstep2.trans (hstep1.trans hsub), hinst⟩, ?_⟩
        · show updateStepIn
              (updateStepIn c.workflowSteps "Submit to CA" StepStatus.pending none now)
              "Submit to CA" StepStatus.failed (some gw.error) now = [g, s2, inst]
          rw [hsteps, hupd1, hupd2]
        · intro hcompl
          simp only [genStepStatus] at hcompl
          rw [hsteps, hupd1, hupd2] at hcompl
          rw [List.find?_cons_of_pos _ (by simp [hg])] at hcompl
          simp only [Option.map] at hcompl
          exact hinv (hgenc.trans hcompl)

/-- Any single workflow operation preserves the shape and the invariant. -/
theorem applyOp_preserves (op : CSROp) (c : CSRRequest)
    (hop : opOutputNonEmpty op)
    (hshape : StepShape c)
    (hinv : genStepStatus c = some StepStatus.completed → c.csrPEM ≠ "") :
    StepShape (applyOp c op) ∧
      (genStepStatus (applyOp c op) = some StepStatus.completed →
        (applyOp c op).csrPEM ≠ "") := by
  cases op with
  | update u => exact update_preserves u c hshape hinv
  | generate now gw => exact generate_preserves now gw c hop hshape hinv
  | submit now gw => exact submit_preserves now gw c hshape hinv

/-- The invariant carried through any operation sequence. -/
theorem runOps_inv (ops : List CSROp) (c : CSRRequest)
    (hops : ∀ op ∈ ops, opOutputNonEmpty op)
    (hshape : StepShape c)
    (hinv : genStepStatus c = some StepStatus.completed → c.csrPEM ≠ "") :
    StepShape (runOps c ops) ∧
      (genStepStatus (runOps c ops) = some StepStatus.completed →
        (runOps c ops).csrPEM ≠ "") := by
  induction ops generalizing c with
  | nil => exact ⟨hshape, hinv⟩
  | cons op ops ih =>
      have h1 := applyOp_preserves op c (hops op (by simp)) hshape hinv
      exact ih (applyOp c op) (fun o ho => hops o (by simp [ho])) h1.1 h1.2

/-- C4 counterexample: the iff "csrPEM non-empty ⟺ Generate CSR step
completed" fails — after a successful generate followed by a failed
regenerate (both legal, since a generated CSR is still `pending`), csrPEM
still holds the old PEM while the step is `failed`. -/
theorem csrPEM_iff_completed_counterexample :
    createCSR baseInput = Except.ok baseCSR ∧
    (runOps baseCSR [CSROp.generate 0 okPS, CSROp.generate 1 failPS]).csrPEM = "PEMDATA" ∧
    genStepStatus (runOps baseCSR [CSROp.generate 0 okPS, CSROp.generate 1 failPS]) =
      some StepStatus.failed := by
  refine ⟨rfl, rfl, rfl⟩

/-- C4 amended: for every CSR created by the workflow and after every
sequence of update/generate/submit operations whose successful gateway
results carry non-empty output, if the "Generate CSR" step is completed
then csrPEM is non-empty. (The converse direction of the original iff
fails — see the counterexample.) -/
theorem completed_step_implies_csrPEM (input : CreateInput) (csr0 : CSRRequest)
    (hcreate : createCSR input = Except.ok csr0) (ops : List CSROp)
    (hops : ∀ op ∈ ops, opOutputNonEmpty op)
    (hcompl : genStepStatus (runOps csr0 ops) = some StepStatus.completed) :
    (runOps csr0 ops).csrPEM ≠ "" := by
  have hinit : StepShape csr0 ∧
      (genStepStatus csr0 = some StepStatus.completed → csr0.csrPEM ≠ "") := by
    unfold createCSR at hcreate
    split_ifs at hcreate
    cases hcreate
    constructor
    · exact ⟨_, _, _, rfl, rfl, rfl, rfl⟩
    · intro hc
      simp [genStepStatus, List.find?] at hc
  exact (runOps_inv ops csr0 hops hinit.1 hinit.2).2 hcompl

/-- Witness for C4's amended claim: one successful generate on a fresh
draft CSR leaves a non-empty csrPEM. -/
theorem completed_step_implies_csrPEM_witness :
    (runOps baseCSR [CSROp.generate 0 okPS]).csrPEM ≠ "" :=
  completed_step_implies_csrPEM baseInput baseCSR rfl [CSROp.generate 0 okPS]
    (by intro op hop
        simp only [List.mem_singleton] at hop
        subst hop
        intro _
        decide)
    (by decide)

/-! ## Notification dispatch: per-certificate lemmas (towards C8, C10) -/

/-- One threshold pass only ever touches a certificate's notificationsSent. -/
theorem stepCertThreshold_shape (now : Int) (sendOk : String → Nat → Bool)
    (recipients : List String) (c : Certificate) (t : Nat) :
    ∃ ns, stepCertThreshold now sendOk recipients c t = { c with notificationsSent := ns } := by
  unfold stepCertThreshold processCertForThreshold
  split_ifs <;> exact ⟨_, rfl⟩

/-- A pass preserves the serial number. -/
theorem stepCertThreshold_serial (now : Int) (sendOk : String → Nat → Bool)
    (recipients : List String) (c : Certificate) (t : Nat) :
    (stepCertThreshold now sendOk recipients c t).serialNumber = c.serialNumber := by
  obtain ⟨ns, h⟩ := stepCertThreshold_shape now sendOk recipients c t
  rw [h]

/-- A pass preserves the status. -/
theorem stepCertThreshold_status (now : Int) (sendOk : String → Nat → Bool)
    (recipients : List String) (c : Certificate) (t : Nat) :
    (stepCertThreshold now sendOk recipients c t).status = c.status := by
  obtain ⟨ns, h⟩ := stepCertThreshold_shape now sendOk recipients c t
  rw [h]

/-- A pass preserves window membership for every threshold. -/
theorem stepCertThreshold_window (now now2 : Int) (sendOk : String → Nat → Bool)
    (recipients : List String) (c : Certificate) (t d : Nat) :
    expiringWindow now2 d (stepCertThreshold now sendOk recipients c t) =
      expiringWindow now2 d c := by
  obtain ⟨ns, h⟩ := stepCertThreshold_shape now sendOk recipients c t
  rw [h]
  rfl

/-- A whole dispatch's passes preserve the serial number. -/
theorem certAfterThresholds_serial (now : Int) (sendOk : String → Nat → Bool)
    (recipients : List String) (tds : List Nat) (c : Certificate) :
    (certAfterThresholds now sendOk recipients tds c).serialNumber = c.serialNumber := by
  induction tds generalizing c with
  | nil => rfl
  | cons t tds ih =>
      show (certAfterThresholds now sendOk recipients tds
        (stepCertThreshold now sendOk recipients c t)).serialNumber = c.serialNumber
      rw [ih, stepCertThreshold_serial]

/-- If the certificate already has an entry of this type, the count is
positive, so the pass's already-sent check fires. -/
theorem any_type_of_countType_pos (c : Certificate) (A : String)
    (h : countType c A ≠ 0) :
    c.notificationsSent.any (fun n => n.type == A) = true := by
  by_contra hany
  apply h
  unfold countType
  rw [List.countP_eq_zero]
  intro a ha
  intro hpa
  exact hany (List.any_eq_true.mpr ⟨a, ha, hpa⟩)

/-- Conversely, a zero count means the already-sent check does not fire. -/
theorem any_type_of_countType_zero (c : Certificate) (A : String)
    (h : countType c A = 0) :
    c.notificationsSent.any (fun n => n.type == A) = false := by
  rw [List.any_eq_false]
  intro a ha
  unfold countType at h
  rw [List.countP_eq_zero] at h
  exact h a ha

/-- A pass for a threshold whose type string differs from `A` never
changes the number of `A`-entries. -/
theorem countType_step_ne (now : Int) (sendOk : String → Nat → Bool)
    (recipients : List String) (c : Certificate) (t : Nat) (A : String)
    (hne : dayString t ≠ A) :
    countType (stepCertThreshold now sendOk recipients c t) A = countType c A := by
  unfold stepCertThreshold processCertForThreshold
  split_ifs <;> try rfl
  unfold countType
  simp only [List.countP_append, List.countP_cons, List.countP_nil]
  have : (dayString t == A) = false := by
    simp [hne]
  simp [this]

/-- A pass for threshold `d` on an in-window certificate with no prior
`d`-entry appends exactly one entry on send success and none on failure. -/
theorem countType_step_fire (now : Int) (sendOk : String → Nat → Bool)
    (recipients : List String) (c : Certificate) (d : Nat)
    (hwin : expiringWindow now d c = true)
    (hnone : countType c (dayString d) = 0) :
    countType (stepCertThreshold now sendOk recipients c d) (dayString d) =
      if sendOk c.serialNumber d then 1 else 0 := by
  unfold stepCertThreshold processCertForThreshold
  rw [if_pos hwin, if_neg (by rw [any_type_of_countType_zero c _ hnone]; simp)]
  split_ifs with hok
  · unfold countType at hnone ⊢
    simp only [List.countP_append, List.countP_cons, List.countP_nil, hnone]
    simp
  · exact hnone

/-- A pass never changes the count of a type already present. -/
theorem countType_step_of_pos (now : Int) (sendOk : String → Nat → Bool)
    (recipients : List String) (c : Certificate) (t : Nat) (A : String)
    (hpos : countType c A ≠ 0) :
    countType (stepCertThreshold now sendOk recipients c t) A = countType c A := by
  by_cases heq : dayString t = A
  · unfold stepCertThreshold processCertForThreshold
    rw [heq]
    split_ifs with h1 h2 <;> try rfl
    exact absurd (any_type_of_countType_pos c A hpos) (by simp [h2])
  · exact countType_step_ne now sendOk recipients c t A heq

/-- A pass keeps every per-type count at most one (an entry is pushed
only when no entry of its type exists yet). -/
theorem countType_step_le_one (now : Int) (sendOk : String → Nat → Bool)
    (recipients : List String) (c : Certificate) (t : Nat) (A : String)
    (h : countType c A ≤ 1) :
    countType (stepCertThreshold now sendOk recipients c t) A ≤ 1 := by
  by_cases heq : dayString t = A
  · subst heq
    unfold stepCertThreshold processCertForThreshold
    split_ifs with h1 h2 h3
    · exact h
    · have hz : countType c (dayString t) = 0 := by
        unfold countType
        rw [List.countP_eq_zero]
        have h2f : c.notificationsSent.any (fun n => n.type == dayString t) = false := by
          simpa using h2
        rw [List.any_eq_false] at h2f
        exact h2f
      show countType { c with notificationsSent :=
        c.notificationsSent ++ [⟨dayString t, now, recipients⟩] } (dayString t) ≤ 1
      unfold countType at hz ⊢
      simp [List.countP_append, hz]
    · exact h
    · exact h
  · rw [countType_step_ne now sendOk recipients c t A heq]
    exact h

/-- Unfolding of the per-certificate threshold fold. -/
theorem certAfterThresholds_cons (now : Int) (sendOk : String → Nat → Bool)
    (recipients : List String) (t : Nat) (tds : List Nat) (c : Certificate) :
    certAfterThresholds now sendOk recipients (t :: tds) c =
      certAfterThresholds now sendOk recipients tds
        (stepCertThreshold now sendOk recipients c t) := rfl

/-- Passes whose type strings all differ from `A` leave the `A`-count alone. -/
theorem countType_after_ne (now : Int) (sendOk : String → Nat → Bool)
    (recipients : List String) (tds : List Nat) (c : Certificate) (A : String)
    (hne : ∀ t ∈ tds, dayString t ≠ A) :
    countType (certAfterThresholds now sendOk recipients tds c) A = countType c A := by
  induction tds generalizing c with
  | nil => rfl
  | cons t tds ih =>
      rw [certAfterThresholds_cons,
        ih _ (fun t' ht' => hne t' (List.mem_cons_of_mem _ ht')),
        countType_step_ne now sendOk recipients c t A (hne t (List.mem_cons_self _ _))]

/-- A positive per-type count is never changed by later passes. -/
theorem countType_after_of_pos (now : Int) (sendOk : String → Nat → Bool)
    (recipients : List String) (tds : List Nat) (c : Certificate) (A : String)
    (hpos : countType c A ≠ 0) :
    countType (certAfterThresholds now sendOk recipients tds c) A = countType c A := by
  induction tds generalizing c with
  | nil => rfl
  | cons t tds ih =>
      rw [certAfterThresholds_cons, ih _ ?_, countType_step_of_pos now sendOk recipients c t A hpos]
      rw [countType_step_of_pos now sendOk recipients c t A hpos]
      exact hpos

/-- The dispatch passes keep every per-type count at most one. -/
theorem countType_after_le_one (now : Int) (sendOk : String → Nat → Bool)
    (recipients : List String) (tds : List Nat) (c : Certificate) (A : String)
    (h : countType c A ≤ 1) :
    countType (certAfterThresholds now sendOk recipients tds c) A ≤ 1 := by
  induction tds generalizing c with
  | nil => exact h
  | cons t tds ih =>
      rw [certAfterThresholds_cons]
      exact ih _ (countType_step_le_one now sendOk recipients c t A h)

/-- If threshold `d` is enabled (with pairwise-distinct type strings), an
in-window certificate with no prior `d`-entry ends the dispatch with
exactly one `d`-entry when its send succeeds, and none when it fails. -/
theorem countType_after_fire (now : Int) (sendOk : String → Nat → Bool)
    (recipients : List String) (tds : List Nat) (c : Certificate) (d : Nat)
    (hmem : d ∈ tds)
    (hp : tds.Pairwise (fun a b => dayString a ≠ dayString b))
    (hwin : expiringWindow now d c = true)
    (hnone : countType c (dayString d) = 0) :
    countType (certAfterThresholds now sendOk recipients tds c) (dayString d) =
      if sendOk c.serialNumber d then 1 else 0 := by
  induction tds generalizing c with
  | nil => simp at hmem
  | cons t tds ih =>
      obtain ⟨hhead, htail⟩ := List.pairwise_cons.mp hp
      rw [certAfterThresholds_cons]
      by_cases heq : t = d
      · subst heq
        have hne : ∀ t' ∈ tds, dayString t' ≠ dayString t :=
          fun t' ht' => (hhead t' ht').symm
        rw [countType_after_ne now sendOk recipients tds _ _ hne,
          countType_step_fire now sendOk recipients c t hwin hnone]
      · have hd : d ∈ tds := by
          rcases List.mem_cons.mp hmem with h | h
          · exact absurd h.symm heq
          · exact h
        have hneq : dayString t ≠ dayString d := hhead d hd
        rw [ih _ hd htail
          (by rw [stepCertThreshold_window]; exact hwin)
          (by rw [countType_step_ne now sendOk recipients c t _ hneq]; exact hnone),
          stepCertThreshold_serial]

/-- The per-certificate (serial, d) attempt count vanishes when no pass
carries threshold `d`. -/
theorem certLogCount_pair_zero_of_ne_days (now : Int) (sendOk : String → Nat → Bool)
    (recipients : List String) (s : String) (d : Nat) (tds : List Nat) (c : Certificate)
    (hall : ∀ t' ∈ tds, t' ≠ d) :
    certLogCount (fun e => e.1 == s && e.2.1 == d) now sendOk recipients tds c = 0 := by
  induction tds generalizing c with
  | nil => rfl
  | cons t tds ih =>
      unfold certLogCount
      rw [ih _ (fun t' ht' => hall t' (List.mem_cons_of_mem _ ht'))]
      have hne : (t == d) = false := by
        simp [hall t (List.mem_cons_self _ _)]
      simp [hne]

/-- In the C8 scenario a certificate is attempted exactly once for the
pair (its serial, d): once at the `d`-pass, never before or after. -/
theorem certLogCount_pair_one (now : Int) (sendOk : String → Nat → Bool)
    (recipients : List String) (s : String) (d : Nat) (tds : List Nat) (c : Certificate)
    (hcs : c.serialNumber = s) (hmem : d ∈ tds)
    (hp : tds.Pairwise (fun a b => dayString a ≠ dayString b))
    (hwin : expiringWindow now d c = true)
    (hnone : countType c (dayString d) = 0) :
    certLogCount (fun e => e.1 == s && e.2.1 == d) now sendOk recipients tds c = 1 := by
  induction tds generalizing c with
  | nil => simp at hmem
  | cons t tds ih =>
      obtain ⟨hhead, htail⟩ := List.pairwise_cons.mp hp
      unfold certLogCount
      by_cases heq : t = d
      · subst heq
        have hall : ∀ t' ∈ tds, t' ≠ t := by
          intro t' ht' habs
          exact hhead t' ht' (by rw [habs])
        rw [certLogCount_pair_zero_of_ne_days now sendOk recipients s t tds _ hall]
        have hany := any_type_of_countType_zero c _ hnone
        rw [if_pos ⟨hwin, hany⟩]
        simp [hcs]
      · have hd : d ∈ tds := by
          rcases List.mem_cons.mp hmem with h | h
          · exact absurd h.symm heq
          · exact h
        have hneq : dayString t ≠ dayString d := hhead d hd
        rw [ih _ (by rw [stepCertThreshold_serial]; exact hcs) hd htail
          (by rw [stepCertThreshold_window]; exact hwin)
          (by rw [countType_step_ne now sendOk recipients c t _ hneq]; exact hnone)]
        have hne : (t == d) = false := by simp [heq]
        simp [hne]

/-- Once an entry of type `d` exists, no pass attempts the pair again. -/
theorem certLogCount_pair_zero_of_entry (now : Int) (sendOk : String → Nat → Bool)
    (recipients : List String) (s : String) (d : Nat) (tds : List Nat) (c : Certificate)
    (hpos : countType c (dayString d) ≠ 0) :
    certLogCount (fun e => e.1 == s && e.2.1 == d) now sendOk recipients tds c = 0 := by
  induction tds generalizing c with
  | nil => rfl
  | cons t tds ih =>
      unfold certLogCount
      rw [ih _ (by rw [countType_step_of_pos now sendOk recipients c t _ hpos]; exact hpos)]
      by_cases heq : t = d
      · subst heq
        rw [if_neg (by
          rintro ⟨-, hany⟩
          rw [any_type_of_countType_pos c _ hpos] at hany
          exact Bool.noConfusion hany)]
      · have hne : (t == d) = false := by simp [heq]
        simp [hne]

/-- A revoked certificate matches no threshold window. -/
theorem expiringWindow_revoked (now : Int) (days : Nat) (c : Certificate)
    (h : c.status = CertStatus.revoked) :
    expiringWindow now days c = false := by
  simp [expiringWindow, h]

/-- C10 helper: the expiring-certificate query excludes revoked status. -/
theorem revoked_not_found (now : Int) (days : Nat) (certs : List Certificate)
    (c : Certificate) (h : c.status = CertStatus.revoked) :
    c ∉ findCertificatesExpiringInDays now days certs := by
  intro hmem
  have := (List.mem_filter.mp hmem).2
  rw [expiringWindow_revoked now days c h] at this
  exact Bool.false_ne_true this

/-- The dispatch passes never touch a revoked certificate. -/
theorem certAfter_revoked (now : Int) (sendOk : String → Nat → Bool)
    (recipients : List String) (tds : List Nat) (c : Certificate)
    (h : c.status = CertStatus.revoked) :
    certAfterThresholds now sendOk recipients tds c = c := by
  induction tds generalizing c with
  | nil => rfl
  | cons t tds ih =>
      rw [certAfterThresholds_cons]
      have hstep : stepCertThreshold now sendOk recipients c t = c := by
        unfold stepCertThreshold
        rw [expiringWindow_revoked now t c h]
        simp
      rw [hstep, ih c h]

/-- A revoked certificate contributes no send attempt in any pass. -/
theorem certLogCount_zero_of_revoked (p : String × Nat × Bool → Bool) (now : Int)
    (sendOk : String → Nat → Bool) (recipients : List String) (tds : List Nat)
    (c : Certificate) (h : c.status = CertStatus.revoked) :
    certLogCount p now sendOk recipients tds c = 0 := by
  induction tds generalizing c with
  | nil => rfl
  | cons t tds ih =>
      unfold certLogCount
      have hstep : stepCertThreshold now sendOk recipients c t = c := by
        unfold stepCertThreshold
        rw [expiringWindow_revoked now t c h]
        simp
      rw [hstep, ih c h, if_neg (by
        rintro ⟨hw, -⟩
        rw [expiringWindow_revoked now t c h] at hw
        exact Bool.false_ne_true hw)]

/-- A threshold pass maps the per-certificate step over the collection. -/
theorem runThreshold_fst (now : Int) (sendOk : String → Nat → Bool)
    (recipients : List String) (t : Nat) (certs : List Certificate) :
    (runThreshold now sendOk recipients t certs).1 =
      certs.map (fun c => stepCertThreshold now sendOk recipients c t) := by
  induction certs with
  | nil => rfl
  | cons c rest ih =>
      unfold runThreshold
      rcases hpc : processCertForThreshold t now sendOk recipients c with ⟨c2, o⟩
      by_cases hw : expiringWindow now t c = true
      · cases o <;> simp [hpc, hw, ih, stepCertThreshold]
      · simp [hpc, hw, ih, stepCertThreshold]

/-- A pass over certificates that all have a different serial than `s`
logs nothing that a serial-`s` predicate counts. -/
theorem runThreshold_snd_zero (p : String × Nat × Bool → Bool) (s : String)
    (hp : ∀ e, p e = true → e.1 = s) (now : Int) (sendOk : String → Nat → Bool)
    (recipients : List String) (t : Nat) (certs : List Certificate)
    (hall : ∀ c' ∈ certs, c'.serialNumber ≠ s) :
    ((runThreshold now sendOk recipients t certs).2).countP p = 0 := by
  induction certs with
  | nil => rfl
  | cons c rest ih =>
      have hcne : ∀ b, p (c.serialNumber, t, b) = false := by
        intro b
        cases hb : p (c.serialNumber, t, b) with
        | false => rfl
        | true => exact absurd (hp _ hb) (hall c (List.mem_cons_self _ _))
      have hrest := ih (fun c' h => hall c' (List.mem_cons_of_mem _ h))
      unfold runThreshold
      rcases hpc : processCertForThreshold t now sendOk recipients c with ⟨c2, o⟩
      by_cases hw : expiringWindow now t c = true
      · cases o <;> simp [hpc, hw, List.countP_cons, hrest, hcne]
      · simp [hpc, hw, hrest]

/-- One pass's log, counted by a serial-`s` predicate, comes entirely from
the unique certificate with serial `s`: one entry if it is in the window
with no prior entry of this type, none otherwise. -/
theorem runThreshold_snd_split (p : String × Nat × Bool → Bool) (now : Int)
    (sendOk : String → Nat → Bool) (recipients : List String) (t : Nat)
    (pre post : List Certificate) (c : Certificate)
    (hp : ∀ e, p e = true → e.1 = c.serialNumber)
    (hpre : ∀ c' ∈ pre, c'.serialNumber ≠ c.serialNumber)
    (hpost : ∀ c' ∈ post, c'.serialNumber ≠ c.serialNumber) :
    ((runThreshold now sendOk recipients t (pre ++ c :: post)).2).countP p =
      (if expiringWindow now t c = true ∧
          c.notificationsSent.any (fun n => n.type == dayString t) = false
       then (if p (c.serialNumber, t, sendOk c.serialNumber t) then 1 else 0) else 0) := by
  induction pre with
  | nil =>
      have hrest := runThreshold_snd_zero p c.serialNumber hp now sendOk recipients t post hpost
      by_cases hw : expiringWindow now t c = true
      · by_cases hal : c.notificationsSent.any (fun n => n.type == dayString t) = true
        · have hpc : processCertForThreshold t now sendOk recipients c = (c, none) := by
            unfold processCertForThreshold
            rw [if_pos hal]
          simp [runThreshold, hw, hpc, hrest, hal]
        · have half : c.notificationsSent.any (fun n => n.type == dayString t) = false := by
            simpa using hal
          by_cases hok : sendOk c.serialNumber t = true
          · have hpc : processCertForThreshold t now sendOk recipients c =
                ({ c with notificationsSent :=
                    c.notificationsSent ++ [⟨dayString t, now, recipients⟩] }, some true) := by
              unfold processCertForThreshold
              rw [if_neg (by simp [half]), if_pos hok]
            simp [runThreshold, hw, hpc, List.countP_cons, hrest, half, hok]
          · have hokf : sendOk c.serialNumber t = false := by simpa using hok
            have hpc : processCertForThreshold t now sendOk recipients c = (c, some false) := by
              unfold processCertForThreshold
              rw [if_neg (by simp [half]), if_neg (by simp [hokf])]
            simp [runThreshold, hw, hpc, List.countP_cons, hrest, half, hokf]
      · simp only [List.nil_append]
        unfold runThreshold
        rcases hpc : processCertForThreshold t now sendOk recipients c with ⟨c2, o⟩
        simp [hw, hpc, hrest]
  | cons c2 pre ih =>
      have hc2 : ∀ b, p (c2.serialNumber, t, b) = false := by
        intro b
        cases hb : p (c2.serialNumber, t, b) with
        | false => rfl
        | true => exact absurd (hp _ hb) (hpre c2 (List.mem_cons_self _ _))
      have hih := ih (fun c' h => hpre c' (List.mem_cons_of_mem _ h))
      show ((runThreshold now sendOk recipients t (c2 :: (pre ++ c :: post))).2).countP p = _
      unfold runThreshold
      rcases hpc : processCertForThreshold t now sendOk recipients c2 with ⟨c3, o⟩
      by_cases hw2 : expiringWindow now t c2 = true
      · cases o <;> simp [hpc, hw2, List.countP_cons, hih, hc2]
      · simp [hpc, hw2, hih]

/-- The dispatch applies the per-certificate threshold fold across the
collection. -/
theorem dispatchThresholds_fst (now : Int) (sendOk : String → Nat → Bool)
    (recipients : List String) (tds : List Nat) (certs : List Certificate) :
    (dispatchThresholds now sendOk recipients tds certs).1 =
      certs.map (certAfterThresholds now sendOk recipients tds) := by
  induction tds generalizing certs with
  | nil =>
      show certs = certs.map (certAfterThresholds now sendOk recipients [])
      have : certAfterThresholds now sendOk recipients [] = fun c => c := rfl
      rw [this, List.map_id']
  | cons t tds ih =>
      show (dispatchThresholds now sendOk recipients tds
          (runThreshold now sendOk recipients t certs).1).1 = _
      rw [ih, runThreshold_fst, List.map_map]
      rfl

/-- The dispatch log, counted by a serial-`s` predicate, is exactly the
distinguished certificate's per-pass attempt count. -/
theorem dispatchThresholds_snd (p : String × Nat × Bool → Bool) (now : Int)
    (sendOk : String → Nat → Bool) (recipients : List String) (tds : List Nat)
    (pre post : List Certificate) (c : Certificate)
    (hp : ∀ e, p e = true → e.1 = c.serialNumber)
    (hpre : ∀ c' ∈ pre, c'.serialNumber ≠ c.serialNumber)
    (hpost : ∀ c' ∈ post, c'.serialNumber ≠ c.serialNumber) :
    ((dispatchThresholds now sendOk recipients tds (pre ++ c :: post)).2).countP p =
      certLogCount p now sendOk recipients tds c := by
  induction tds generalizing pre post c with
  | nil => rfl
  | cons t tds ih =>
      show ((runThreshold now sendOk recipients t (pre ++ c :: post)).2 ++
          (dispatchThresholds now sendOk recipients tds
            (runThreshold now sendOk recipients t (pre ++ c :: post)).1).2).countP p = _
      rw [List.countP_append]
      rw [runThreshold_snd_split p now sendOk recipients t pre post c hp hpre hpost]
      rw [runThreshold_fst, List.map_append, List.map_cons]
      have hp2 : ∀ e, p e = true →
          e.1 = (stepCertThreshold now sendOk recipients c t).serialNumber := by
        intro e he
        rw [stepCertThreshold_serial]
        exact hp e he
      have hpre2 : ∀ c' ∈ pre.map (fun x => stepCertThreshold now sendOk recipients x t),
          c'.serialNumber ≠ (stepCertThreshold now sendOk recipients c t).serialNumber := by
        intro c' hc'
        obtain ⟨x, hx, rfl⟩ := List.mem_map.mp hc'
        rw [stepCertThreshold_serial, stepCertThreshold_serial]
        exact hpre x hx
      have hpost2 : ∀ c' ∈ post.map (fun x => stepCertThreshold now sendOk recipients x t),
          c'.serialNumber ≠ (stepCertThreshold now sendOk recipients c t).serialNumber := by
        intro c' hc'
        obtain ⟨x, hx, rfl⟩ := List.mem_map.mp hc'
        rw [stepCertThreshold_serial, stepCertThreshold_serial]
        exact hpost x hx
      rw [ih _ _ _ hp2 hpre2 hpost2]
      rfl

/-- When notifications are enabled, at least one threshold is enabled and
recipients resolve, the dispatcher runs the per-threshold passes. -/
theorem sendExpirationNotifications_run (now : Int) (settings : NotificationSettings)
    (recipients : List String) (sendOk : String → Nat → Bool) (certs : List Certificate)
    (hen : settings.enabled = true) (htds : enabledThresholds settings ≠ [])
    (hrec : recipients ≠ []) :
    sendExpirationNotifications now settings recipients sendOk certs =
      dispatchThresholds now sendOk recipients (enabledThresholds settings) certs := by
  unfold sendExpirationNotifications
  rw [hen]
  cases htd : enabledThresholds settings with
  | nil => exact absurd htd htds
  | cons t tds =>
      cases recipients with
      | nil => exact absurd rfl hrec
      | cons r rs => simp [htd]

/-! ## Claim theorems: notification dispatch (C8, C10) -/

/-- C8: at-most-once notification per (certificate, threshold). For a
certificate in the window of an enabled threshold `d` with no prior
`d`-entry (serial numbers unique in the collection, threshold type strings
distinct, notifications enabled, recipients resolved): the dispatch
attempts exactly one send for the pair; exactly one `notificationsSent`
entry of that type is appended when the send succeeds and none when it
fails; the collection is updated per-certificate; a second dispatch before
any state change sends zero additional messages for the pair; and no
certificate ever accumulates more than one entry per threshold type. -/
theorem at_most_once_notification
    (now : Int) (settings : NotificationSettings) (recipients : List String)
    (sendOk : String → Nat → Bool) (pre post : List Certificate) (c : Certificate) (d : Nat)
    (hen : settings.enabled = true)
    (hmem : d ∈ enabledThresholds settings)
    (hnd : ((enabledThresholds settings).map dayString).Nodup)
    (hrec : recipients ≠ [])
    (hpre : ∀ c' ∈ pre, c'.serialNumber ≠ c.serialNumber)
    (hpost : ∀ c' ∈ post, c'.serialNumber ≠ c.serialNumber)
    (hwin : expiringWindow now d c = true)
    (hnone : countType c (dayString d) = 0) :
    logCountFor c.serialNumber d
        (sendExpirationNotifications now settings recipients sendOk (pre ++ c :: post)).2
      = 1 ∧
    countType (certAfterThresholds now sendOk recipients (enabledThresholds settings) c)
        (dayString d) = (if sendOk c.serialNumber d then 1 else 0) ∧
    (sendExpirationNotifications now settings recipients sendOk (pre ++ c :: post)).1 =
      (pre ++ c :: post).map
        (certAfterThresholds now sendOk recipients (enabledThresholds settings)) ∧
    (sendOk c.serialNumber d = true →
      logCountFor c.serialNumber d
        (sendExpirationNotifications now settings recipients sendOk
          (sendExpirationNotifications now settings recipients sendOk (pre ++ c :: post)).1).2
        = 0) ∧
    (∀ A, countType c A ≤ 1 →
      countType (certAfterThresholds now sendOk recipients (enabledThresholds settings) c) A
        ≤ 1) := by
  have htds : enabledThresholds settings ≠ [] := by
    intro h
    rw [h] at hmem
    simp at hmem
  have hrun := sendExpirationNotifications_run now settings recipients sendOk
    (pre ++ c :: post) hen htds hrec
  have hpair : (enabledThresholds settings).Pairwise (fun a b => dayString a ≠ dayString b) :=
    List.pairwise_map.mp hnd
  have hp : ∀ e : String × Nat × Bool,
      (fun e : String × Nat × Bool => e.1 == c.serialNumber && e.2.1 == d) e = true →
        e.1 = c.serialNumber := by
    intro e he
    simp only [Bool.and_eq_true, beq_iff_eq] at he
    exact he.1
  refine ⟨?_, ?_, ?_, ?_, ?_⟩
  · unfold logCountFor
    rw [hrun, dispatchThresholds_snd _ now sendOk recipients _ pre post c hp hpre hpost]
    exact certLogCount_pair_one now sendOk recipients c.serialNumber d _ c rfl hmem hpair
      hwin hnone
  · exact countType_after_fire now sendOk recipients _ c d hmem hpair hwin hnone
  · rw [hrun]
    exact dispatchThresholds_fst now sendOk recipients _ _
  · intro hok
    have hone : countType
        (certAfterThresholds now sendOk recipients (enabledThresholds settings) c)
        (dayString d) = 1 := by
      rw [countType_after_fire now sendOk recipients _ c d hmem hpair hwin hnone, if_pos hok]
    have hfst : (sendExpirationNotifications now settings recipients sendOk
        (pre ++ c :: post)).1 =
        pre.map (certAfterThresholds now sendOk recipients (enabledThresholds settings))
          ++ certAfterThresholds now sendOk recipients (enabledThresholds settings) c
          :: post.map (certAfterThresholds now sendOk recipients (enabledThresholds settings)) := by
      rw [hrun, dispatchThresholds_fst, List.map_append, List.map_cons]
    rw [hfst]
    have hrun2 := sendExpirationNotifications_run now settings recipients sendOk
      (pre.map (certAfterThresholds now sendOk recipients (enabledThresholds settings))
        ++ certAfterThresholds now sendOk recipients (enabledThresholds settings) c
        :: post.map (certAfterThresholds now sendOk recipients (enabledThresholds settings)))
      hen htds hrec
    unfold logCountFor
    rw [hrun2]
    have hp2 : ∀ e : String × Nat × Bool,
        (fun e : String × Nat × Bool => e.1 == c.serialNumber && e.2.1 == d) e = true →
          e.1 = (certAfterThresholds now sendOk recipients (enabledThresholds settings)
            c).serialNumber := by
      intro e he
      rw [certAfterThresholds_serial]
      exact hp e he
    have hpre2 : ∀ c' ∈ pre.map
        (certAfterThresholds now sendOk recipients (enabledThresholds settings)),
        c'.serialNumber ≠ (certAfterThresholds now sendOk recipients
          (enabledThresholds settings) c).serialNumber := by
      intro c' hc'
      obtain ⟨x, hx, rfl⟩ := List.mem_map.mp hc'
      rw [certAfterThresholds_serial, certAfterThresholds_serial]
      exact hpre x hx
    have hpost2 : ∀ c' ∈ post.map
        (certAfterThresholds now sendOk recipients (enabledThresholds settings)),
        c'.serialNumber ≠ (certAfterThresholds now sendOk recipients
          (enabledThresholds settings) c).serialNumber := by
      intro c' hc'
      obtain ⟨x, hx, rfl⟩ := List.mem_map.mp hc'
      rw [certAfterThresholds_serial, certAfterThresholds_serial]
      exact hpost x hx
    rw [dispatchThresholds_snd _ now sendOk recipients _ _ _ _ hp2 hpre2 hpost2]
    exact certLogCount_pair_zero_of_entry now sendOk recipients c.serialNumber d _ _
      (by rw [hone]; omega)
  · intro A hA
    exact countType_after_le_one now sendOk recipients _ c A hA

/-- Witness for C8: one enabled 7-day threshold, one certificate expiring
in exactly 7 days, every send succeeding. -/
theorem at_most_once_notification_witness :
    logCountFor cert7.serialNumber 7
        (sendExpirationNotifications 0 notifSettings ["ops@example.com"] alwaysSend
          ([] ++ cert7 :: [])).2 = 1 ∧
    countType (certAfterThresholds 0 alwaysSend ["ops@example.com"]
        (enabledThresholds notifSettings) cert7) (dayString 7)
      = (if alwaysSend cert7.serialNumber 7 then 1 else 0) ∧
    (sendExpirationNotifications 0 notifSettings ["ops@example.com"] alwaysSend
        ([] ++ cert7 :: [])).1 =
      ([] ++ cert7 :: []).map
        (certAfterThresholds 0 alwaysSend ["ops@example.com"]
          (enabledThresholds notifSettings)) ∧
    (alwaysSend cert7.serialNumber 7 = true →
      logCountFor cert7.serialNumber 7
        (sendExpirationNotifications 0 notifSettings ["ops@example.com"] alwaysSend
          (sendExpirationNotifications 0 notifSettings ["ops@example.com"] alwaysSend
            ([] ++ cert7 :: [])).1).2 = 0) ∧
    (∀ A, countType cert7 A ≤ 1 →
      countType (certAfterThresholds 0 alwaysSend ["ops@example.com"]
        (enabledThresholds notifSettings) cert7) A ≤ 1) :=
  at_most_once_notification 0 notifSettings ["ops@example.com"] alwaysSend [] [] cert7 7
    rfl (by decide) (by decide) (by decide) (by simp) (by simp) (by decide) (by decide)

/-- C10: the dispatcher never notifies on a revoked certificate — the
expiring query excludes it, every pass leaves it untouched, the dispatch
log holds no attempt for its serial, and it survives dispatch in place. -/
theorem revoked_never_notified
    (now : Int) (settings : NotificationSettings) (recipients : List String)
    (sendOk : String → Nat → Bool) (pre post : List Certificate) (c : Certificate)
    (hrev : c.status = CertStatus.revoked)
    (hpre : ∀ c' ∈ pre, c'.serialNumber ≠ c.serialNumber)
    (hpost : ∀ c' ∈ post, c'.serialNumber ≠ c.serialNumber) :
    (∀ days, c ∉ findCertificatesExpiringInDays now days (pre ++ c :: post)) ∧
    certAfterThresholds now sendOk recipients (enabledThresholds settings) c = c ∧
    logCountSerial c.serialNumber
      (sendExpirationNotifications now settings recipients sendOk (pre ++ c :: post)).2
      = 0 ∧
    ∃ pre2 post2,
      (sendExpirationNotifications now settings recipients sendOk (pre ++ c :: post)).1 =
        pre2 ++ c :: post2 ∧ pre2.length = pre.length := by
  have hp : ∀ e : String × Nat × Bool,
      (fun e : String × Nat × Bool => e.1 == c.serialNumber) e = true →
        e.1 = c.serialNumber := by
    intro e he
    simpa using he
  have hcases : sendExpirationNotifications now settings recipients sendOk
        (pre ++ c :: post) = (pre ++ c :: post, []) ∨
      sendExpirationNotifications now settings recipients sendOk (pre ++ c :: post) =
        dispatchThresholds now sendOk recipients (enabledThresholds settings)
          (pre ++ c :: post) := by
    unfold sendExpirationNotifications
    cases hsen : settings.enabled with
    | false => left; simp
    | true =>
        cases htd : enabledThresholds settings with
        | nil => left; simp [htd]
        | cons t ts =>
            cases recipients with
            | nil => left; simp [htd]
            | cons r rs => right; simp [htd]
  refine ⟨fun days => revoked_not_found now days _ c hrev,
    certAfter_revoked now sendOk recipients _ c hrev, ?_, ?_⟩
  · rcases hcases with h | h
    · rw [h]
      rfl
    · unfold logCountSerial
      rw [h, dispatchThresholds_snd _ now sendOk recipients _ pre post c hp hpre hpost]
      exact certLogCount_zero_of_revoked _ now sendOk recipients _ c hrev
  · rcases hcases with h | h
    · exact ⟨pre, post, by rw [h], rfl⟩
    · refine ⟨pre.map (certAfterThresholds now sendOk recipients (enabledThresholds settings)),
        post.map (certAfterThresholds now sendOk recipients (enabledThresholds settings)),
        ?_, by rw [List.length_map]⟩
      rw [h, dispatchThresholds_fst, List.map_append, List.map_cons,
        certAfter_revoked now sendOk recipients _ c hrev]

/-- Witness for C10: a revoked certificate inside the 7-day window, next
to an active certificate with a different serial. -/
theorem revoked_never_notified_witness :
    (∀ days, revokedCert ∉ findCertificatesExpiringInDays 0 days
      ([cert7] ++ revokedCert :: [])) ∧
    certAfterThresholds 0 alwaysSend ["ops@example.com"]
      (enabledThresholds notifSettings) revokedCert = revokedCert ∧
    logCountSerial revokedCert.serialNumber
      (sendExpirationNotifications 0 notifSettings ["ops@example.com"] alwaysSend
        ([cert7] ++ revokedCert :: [])).2 = 0 ∧
    ∃ pre2 post2,
      (sendExpirationNotifications 0 notifSettings ["ops@example.com"] alwaysSend
        ([cert7] ++ revokedCert :: [])).1 = pre2 ++ revokedCert :: post2 ∧
      pre2.length = [cert7].length :=
  revoked_never_notified 0 notifSettings ["ops@example.com"] alwaysSend [cert7] []
    revokedCert rfl (by decide) (by simp)

end CertManager
